import Mathlib

/-!
# Verification of the telegram-reminder-bot core

A shallow embedding of the repository's task store (`src/tasks/store.ts`),
reminder scheduler (`src/tasks/scheduler.ts`), reminder computation
(`src/tasks/reminders.ts`) and snippet evaluator (`src/ai/evalSnippet.ts`),
together with proofs about the claims of the specification.

Modelling conventions:
* ISO datetime strings are represented by their timestamp value in
  milliseconds since the Unix epoch, as an `Int` (the code always compares
  them through `Date.parse` / `DateTime.toMillis`).
* Civil (calendar) dates are represented by their epoch day number, which is
  in bijection with proleptic-Gregorian (year, month, day) triples.  The
  luxon operation `minus \x7bdays: 1\x7d` decrements the calendar date, i.e. the
  epoch day number.
* Each store operation is a load-mutate-save cycle over the single tasks
  file; the embedding makes the file an explicit argument and result.
* `new Date().toISOString()` / `Date.now()` calls are modelled by an explicit
  `now` argument (one logical instant per operation).
-/

namespace TRB

/-- Reminder kinds (`src/tasks/schema.ts`). -/
inductive ReminderKind where
  | dayBefore2100
  | oneHourBefore
  | atTime
deriving DecidableEq, Repr

/-- One reminder of a task (`src/tasks/schema.ts`).  `atIso` is the fire
instant; `sentAtIso` / `skippedReason` are the optional delivery markers. -/
structure Reminder where
  kind : ReminderKind
  atIso : Int
  sentAtIso : Option Int := none
  skippedReason : Option String := none
deriving DecidableEq, Repr

/-- Task status (`src/tasks/schema.ts`). -/
inductive TaskStatus where
  | scheduled
  | cancelled
  | done
deriving DecidableEq, Repr

/-- A task (`src/tasks/schema.ts`). -/
structure Task where
  id : String
  chatId : Int
  message : String
  dueAtIso : Int
  createdAtIso : Int
  updatedAtIso : Int
  status : TaskStatus
  reminders : List Reminder
deriving DecidableEq, Repr

/-- The persisted tasks file (`src/tasks/schema.ts`). -/
structure TasksFile where
  version : Int
  timezone : String
  tasks : List Task
deriving DecidableEq, Repr

/-- Result of `cleanupOldRemindersAndTasks` (`src/tasks/store.ts`). -/
structure CleanupResult where
  removedTaskIds : List String
  skipped : List (String × ReminderKind)
deriving DecidableEq, Repr

/-- Replaces the first element satisfying `p` by its image under `f`
(the JS idiom `arr.find(p)` followed by in-place mutation). -/
def updateFirst (p : α → Bool) (f : α → α) : List α → List α
  | [] => []
  | x :: xs => if p x then f x :: xs else x :: updateFirst p f xs

/-- `addTask` (`src/tasks/store.ts`): appends the task and saves. -/
def addTask (data : TasksFile) (task : Task) : TasksFile :=
  { data with tasks := data.tasks ++ [task] }

/-- A `Partial<Task>` argument of `updateTask`: every field optional. -/
structure TaskPartial where
  id : Option String := none
  chatId : Option Int := none
  message : Option String := none
  dueAtIso : Option Int := none
  createdAtIso : Option Int := none
  updatedAtIso : Option Int := none
  status : Option TaskStatus := none
  reminders : Option (List Reminder) := none
deriving Repr

/-- The JS spread `{ ...task, ...updates }`. -/
def applyPartial (t : Task) (u : TaskPartial) : Task :=
  { id := u.id.getD t.id
    chatId := u.chatId.getD t.chatId
    message := u.message.getD t.message
    dueAtIso := u.dueAtIso.getD t.dueAtIso
    createdAtIso := u.createdAtIso.getD t.createdAtIso
    updatedAtIso := u.updatedAtIso.getD t.updatedAtIso
    status := u.status.getD t.status
    reminders := u.reminders.getD t.reminders }

/-- `updateTask` (`src/tasks/store.ts`): replaces the first task with the
given id by the spread-merge and returns it (`null` when absent). -/
def updateTask (data : TasksFile) (taskId : String) (u : TaskPartial) :
    TasksFile × Option Task :=
  match data.tasks.find? (fun t => decide (t.id = taskId)) with
  | none => (data, none)
  | some t =>
      ({ data with
          tasks := updateFirst (fun t => decide (t.id = taskId))
            (fun t => applyPartial t u) data.tasks },
        some (applyPartial t u))

/-- `getTask` (`src/tasks/store.ts`). -/
def getTask (data : TasksFile) (taskId : String) : Option Task :=
  data.tasks.find? (fun t => decide (t.id = taskId))

/-- `getScheduledTasks` (`src/tasks/store.ts`). -/
def getScheduledTasks (data : TasksFile) : List Task :=
  data.tasks.filter (fun t => decide (t.status = .scheduled))

/-- `cancelTask` (`src/tasks/store.ts`): sets `status := cancelled` and
`updatedAtIso := now` on the first task with the given id. -/
def cancelTask (data : TasksFile) (taskId : String) (now : Int) :
    TasksFile × Option Task :=
  match data.tasks.find? (fun t => decide (t.id = taskId)) with
  | none => (data, none)
  | some t =>
      let t' : Task := { t with status := .cancelled, updatedAtIso := now }
      ({ data with
          tasks := updateFirst (fun x => decide (x.id = taskId))
            (fun x => { x with status := .cancelled, updatedAtIso := now })
            data.tasks },
        some t')

/-- `markReminderSent` (`src/tasks/store.ts`): on the first task with the
given id, sets `sentAtIso := now` on the first reminder of the given kind
(unconditionally). -/
def markReminderSent (data : TasksFile) (taskId : String)
    (kind : ReminderKind) (now : Int) : TasksFile :=
  { data with
      tasks := updateFirst (fun t => decide (t.id = taskId))
        (fun t =>
          { t with
              reminders := updateFirst (fun r => decide (r.kind = kind))
                (fun r => { r with sentAtIso := some now }) t.reminders })
        data.tasks }

/-- `markReminderSkipped` (`src/tasks/store.ts`): on the first task with the
given id, sets `skippedReason := reason` on the first reminder of the given
kind (unconditionally). -/
def markReminderSkipped (data : TasksFile) (taskId : String)
    (kind : ReminderKind) (reason : String) : TasksFile :=
  { data with
      tasks := updateFirst (fun t => decide (t.id = taskId))
        (fun t =>
          { t with
              reminders := updateFirst (fun r => decide (r.kind = kind))
                (fun r => { r with skippedReason := some reason }) t.reminders })
        data.tasks }

/-- `removeTask` (`src/tasks/store.ts`): removes the first task with the
given id; returns whether one was found. -/
def removeTask (data : TasksFile) (taskId : String) : TasksFile × Bool :=
  match data.tasks.findIdx? (fun t => decide (t.id = taskId)) with
  | none => (data, false)
  | some i => ({ data with tasks := data.tasks.eraseIdx i }, true)

/-- One pass of the cleanup skip-marking loop over the reminders of a
scheduled task: an unsent reminder whose instant is `≤ now` and that has no
`skippedReason` yet gets `skippedReason := "past"`. -/
def markPastReminder (now : Int) (r : Reminder) : Reminder :=
  if r.sentAtIso.isSome then r
  else if r.atIso ≤ now ∧ r.skippedReason = none then
    { r with skippedReason := some "past" }
  else r

/-- The `(taskId, kind)` pairs the cleanup reports for one scheduled task. -/
def newlySkippedPairs (now : Int) (t : Task) : List (String × ReminderKind) :=
  (t.reminders.filter
    (fun r => !r.sentAtIso.isSome && decide (r.atIso ≤ now) &&
      decide (r.skippedReason = none))).map (fun r => (t.id, r.kind))

/-- Whether the cleanup removes a scheduled task: its first `atTime`
reminder exists and is due (`atIso ≤ now`), regardless of skip/sent state. -/
def atTimePast (now : Int) (t : Task) : Bool :=
  match t.reminders.find? (fun r => decide (r.kind = .atTime)) with
  | some r => decide (r.atIso ≤ now)
  | none => false

/-- Removes the first task with the given id, reporting success (exactly
the `findIndex` / `splice` step of the cleanup removal loop: it removes the
first match when one exists and leaves the list unchanged otherwise). -/
def removeFirstById : List Task → String → List Task × Bool
  | [], _ => ([], false)
  | t :: ts, i =>
      if t.id = i then (ts, true)
      else
        let r := removeFirstById ts i
        (t :: r.1, r.2)

/-- The cleanup removal loop: removes each id in turn, collecting the ids
actually found and removed. -/
def removeAll (tasks : List Task) : List String → List Task × List String
  | [] => (tasks, [])
  | i :: is =>
      let r := removeFirstById tasks i
      let rest := removeAll r.1 is
      (rest.1, if r.2 then i :: rest.2 else rest.2)

/-- The body of the cleanup marking loop: a scheduled task gets its past
unsent unskipped reminders flagged `skippedReason := "past"`; other tasks
are left untouched (the loop runs over `scheduledTasks` only). -/
def cleanupMark (now : Int) (t : Task) : Task :=
  if t.status = .scheduled then
    { t with reminders := t.reminders.map (markPastReminder now) }
  else t

/-- Whether the cleanup removes a task: it is scheduled and its `atTime`
reminder is due. -/
def cleanupRemoves (now : Int) (t : Task) : Bool :=
  decide (t.status = .scheduled) && atTimePast now t

/-- `cleanupOldRemindersAndTasks` (`src/tasks/store.ts`).  For each
scheduled task it marks past unsent unskipped reminders with
`skippedReason := "past"` and collects the `(taskId, kind)` pairs; every
scheduled task whose `atTime` reminder is due (`atIso ≤ now`) is then
removed regardless of prior skip/sent state. -/
def cleanupOldRemindersAndTasks (data : TasksFile) (now : Int) :
    TasksFile × CleanupResult :=
  ({ data with
      tasks := (removeAll (data.tasks.map (cleanupMark now))
        ((data.tasks.filter (cleanupRemoves now)).map Task.id)).1 },
    { removedTaskIds := (removeAll (data.tasks.map (cleanupMark now))
        ((data.tasks.filter (cleanupRemoves now)).map Task.id)).2
      skipped := (data.tasks.filter
        (fun t => decide (t.status = .scheduled))).flatMap (newlySkippedPairs now) })

/-! ## Scheduler (`src/tasks/scheduler.ts`)

The in-memory timer registry is a map from `taskId:kind` keys to timeout
entries.  Timer handles are modelled as naturals drawn from a counter;
`live` is the set of timer handles not yet cleared (`clearTimeout` removes a
handle from it). -/

/-- One registry entry (`ScheduledTimeout` in the source). -/
structure TimerEntry where
  taskId : String
  reminderKind : ReminderKind
  handle : Option Nat
  fireAtMs : Int
deriving DecidableEq, Repr

/-- Scheduler state: the `scheduledTimeouts` map plus the host timer set. -/
structure SchedState where
  registry : List (String × TimerEntry)
  live : List Nat
  nextHandle : Nat
deriving DecidableEq, Repr

/-- The string of a reminder kind, as it appears in timeout keys. -/
def kindStr : ReminderKind → String
  | .dayBefore2100 => "dayBefore2100"
  | .oneHourBefore => "oneHourBefore"
  | .atTime => "atTime"

/-- `getTimeoutKey` (`src/tasks/scheduler.ts`). -/
def getTimeoutKey (taskId : String) (kind : ReminderKind) : String :=
  taskId ++ ":" ++ kindStr kind

/-- JS `Map.get`. -/
def mapGet (l : List (String × TimerEntry)) (k : String) : Option TimerEntry :=
  (l.find? (fun p => decide (p.1 = k))).map Prod.snd

/-- JS `Map.set`: replaces the binding of `k` when present, appends it
otherwise; the map keeps at most one binding per key. -/
def mapSet (l : List (String × TimerEntry)) (k : String) (v : TimerEntry) :
    List (String × TimerEntry) :=
  if l.any (fun p => decide (p.1 = k)) then
    l.map (fun p => if p.1 = k then (k, v) else p)
  else l ++ [(k, v)]

/-- `clearTimeout`: the handle stops being live. -/
def clearTimeoutH (st : SchedState) (h : Nat) : SchedState :=
  { st with live := st.live.erase h }

/-- `scheduleReminder` (`src/tasks/scheduler.ts`).  With `atIso ≤ now` it
returns `false` and changes nothing; otherwise it clears any existing
handle for the `(taskId, kind)` key, arms a fresh timer and records the
single registry entry for the key with the absolute fire instant. -/
def scheduleReminder (st : SchedState) (task : Task) (reminderKind : ReminderKind)
    (atIso : Int) (now : Int) : Bool × SchedState :=
  let delayMs := atIso - now
  if delayMs ≤ 0 then (false, st)
  else
    let fireAtMs := now + delayMs
    let key := getTimeoutKey task.id reminderKind
    let st1 := match mapGet st.registry key with
      | some e =>
          match e.handle with
          | some h => clearTimeoutH st h
          | none => st
      | none => st
    let h := st1.nextHandle
    (true,
      { registry := mapSet st1.registry key
          { taskId := task.id, reminderKind := reminderKind,
            handle := some h, fireAtMs := fireAtMs }
        live := h :: st1.live
        nextHandle := h + 1 })

/-- `cancelTimeoutsForTask` (`src/tasks/scheduler.ts`): clears and removes
every registry entry of the task, returning the count cleared. -/
def cancelTimeoutsForTask (st : SchedState) (taskId : String) :
    SchedState × Nat :=
  let matching := st.registry.filter (fun p => decide (p.2.taskId = taskId))
  let live' := matching.foldl
    (fun l p => match p.2.handle with | some h => l.erase h | none => l)
    st.live
  ({ registry := st.registry.filter (fun p => !decide (p.2.taskId = taskId))
     live := live'
     nextHandle := st.nextHandle },
    matching.length)

/-- The message text built by the `switch` in `sendReminder`
(`src/tasks/scheduler.ts`): only `oneHourBefore` and `atTime` have cases,
so `dayBefore2100` keeps the initial empty string. -/
def reminderMessage (kind : ReminderKind) (taskMessage : String) : String :=
  match kind with
  | .oneHourBefore => "🔔 In 1 hour 🔔\n" ++ taskMessage
  | .atTime => "🔔 NOW 🔔\n" ++ taskMessage
  | .dayBefore2100 => ""

/-- The 5-minute grace window of `sendReminder`. -/
def gracePeriodMs : Int := 5 * 60 * 1000

/-- `sendReminder` (`src/tasks/scheduler.ts`).  `senderInstalled` models
whether `setReminderSender` has installed a Notifier; `sendOk` models
whether the `sendMessage` call succeeds or throws.  The first component is
the Notifier call made (`chatId`, text), if any; then the resulting tasks
file and scheduler state. -/
def sendReminder (data : TasksFile) (st : SchedState) (senderInstalled : Bool)
    (taskId : String) (kind : ReminderKind) (now : Int) (sendOk : Bool) :
    Option (Int × String) × TasksFile × SchedState :=
  if !senderInstalled then (none, data, st) else
  match getTask data taskId with
  | none => (none, data, st)
  | some task =>
    if task.status ≠ .scheduled then (none, data, st) else
    match task.reminders.find? (fun r => decide (r.kind = kind)) with
    | none => (none, data, st)
    | some reminder =>
      if reminder.sentAtIso.isSome then (none, data, st) else
      if reminder.skippedReason.isSome then (none, data, st) else
      let delayMs := reminder.atIso - now
      if delayMs < -gracePeriodMs then (none, data, st) else
      let message := reminderMessage kind task.message
      if sendOk then
        let data1 := markReminderSent data taskId kind now
        if kind = .atTime then
          let (st1, _) := cancelTimeoutsForTask st taskId
          let (data2, _) := removeTask data1 taskId
          (some (task.chatId, message), data2, st1)
        else (some (task.chatId, message), data1, st)
      else (some (task.chatId, message), data, st)

/-- `rescheduleTask` (`src/tasks/scheduler.ts`): cancels all the task's
timers, then schedules every reminder not already sent or skipped. -/
def rescheduleTask (st : SchedState) (task : Task) (now : Int) : SchedState :=
  let st1 := (cancelTimeoutsForTask st task.id).1
  task.reminders.foldl
    (fun s r =>
      if r.sentAtIso.isSome || r.skippedReason.isSome then s
      else (scheduleReminder s task r.kind r.atIso now).2)
    st1

/-! ## Snippet evaluator (`src/ai/evalSnippet.ts`)

The regexes of the source are matched over the code's character list.  In
every pattern used, `\s*` / `\s+` is followed by a non-whitespace literal
or by the end of the pattern, so a greedy whitespace matcher agrees with
regex backtracking.  `\s` is modelled by the common JS whitespace
characters; `\w` is `[A-Za-z0-9_]` exactly as in JS. -/

/-- JS regex `\s` (the characters relevant to source snippets). -/
def isWsChar (c : Char) : Bool :=
  decide (c = ' ') || decide (c = '\t') || decide (c = '\n') ||
  decide (c = '\r') || decide (c = '\x0b') || decide (c = '\x0c') ||
  decide (c = ' ')

/-- JS regex `\w`. -/
def isWordChar (c : Char) : Bool := c.isAlphanum || decide (c = '_')

/-- A regex token: a literal character, `\s*`, `\s+`, or a trailing word
boundary (`\b` after a word character: next char non-word or end). -/
inductive PatTok where
  | lit : Char → PatTok
  | wsStar
  | wsPlus
  | nwb
deriving DecidableEq, Repr

/-- Matches a token list against a prefix of the input (greedy whitespace). -/
def matchToks : List PatTok → List Char → Bool
  | [], _ => true
  | .lit c :: ps, x :: xs => decide (x = c) && matchToks ps xs
  | .lit _ :: _, [] => false
  | .wsStar :: ps, xs => matchToks ps (xs.dropWhile isWsChar)
  | .wsPlus :: ps, x :: xs => isWsChar x && matchToks ps (xs.dropWhile isWsChar)
  | .wsPlus :: _, [] => false
  | .nwb :: ps, [] => matchToks ps []
  | .nwb :: ps, x :: xs => !isWordChar x && matchToks ps (x :: xs)

/-- `RegExp.test`: a match starting at any position. -/
def scanMatch (ps : List PatTok) : List Char → Bool
  | [] => matchToks ps []
  | x :: rest => matchToks ps (x :: rest) || scanMatch ps rest

/-- A match starting at any position that follows a non-word character. -/
def scanBMatch (ps : List PatTok) : List Char → Bool
  | [] => false
  | c :: rest => (!isWordChar c && matchToks ps rest) || scanBMatch ps rest

/-- `RegExp.test` for a pattern with a leading `\b` followed by a word
character: the match starts at the beginning or after a non-word char. -/
def matchBAnywhere (ps : List PatTok) (s : List Char) : Bool :=
  matchToks ps s || scanBMatch ps s

/-- Literal characters of a string as tokens. -/
def litToks (s : String) : List PatTok := s.toList.map PatTok.lit

/-- `DENYLIST_PATTERNS` (`src/ai/evalSnippet.ts`), each with the source
text of its regex as its name. -/
def DENYLIST_PATTERNS : List (String × List PatTok) := [
  ("fetch\\s*\\(", litToks "fetch" ++ [.wsStar, .lit '(']),
  ("Bun\\.", litToks "Bun."),
  ("process\\.", litToks "process."),
  ("require\\s*\\(", litToks "require" ++ [.wsStar, .lit '(']),
  ("import\\s+", litToks "import" ++ [.wsPlus]),
  ("fs\\.", litToks "fs."),
  ("child_process", litToks "child_process"),
  ("Deno\\.", litToks "Deno."),
  ("net\\.", litToks "net."),
  ("http\\.", litToks "http."),
  ("https\\.", litToks "https."),
  ("eval\\s*\\(", litToks "eval" ++ [.wsStar, .lit '(']),
  ("Function\\s*\\(", litToks "Function" ++ [.wsStar, .lit '(']),
  ("__dirname", litToks "__dirname"),
  ("__filename", litToks "__filename"),
  ("globalThis", litToks "globalThis"),
  ("global\\.", litToks "global."),
  ("window\\.", litToks "window."),
  ("document\\.", litToks "document."),
  ("console\\.", litToks "console."),
  ("setInterval\\s*\\(", litToks "setInterval" ++ [.wsStar, .lit '(']),
  ("setImmediate\\s*\\(", litToks "setImmediate" ++ [.wsStar, .lit '(']),
  ("exec\\s*\\(", litToks "exec" ++ [.wsStar, .lit '(']),
  ("spawn\\s*\\(", litToks "spawn" ++ [.wsStar, .lit '('])]

/-- The static denylist scan: the first matching pattern, if any. -/
def findViolation (code : List Char) : Option String :=
  (DENYLIST_PATTERNS.find? (fun p => scanMatch p.2 code)).map Prod.fst

/-- `/(?:const|let|var)\s+dueIso\b/` as three alternatives. -/
def declPats : List (List PatTok) := [
  litToks "const" ++ [.wsPlus] ++ litToks "dueIso" ++ [.nwb],
  litToks "let" ++ [.wsPlus] ++ litToks "dueIso" ++ [.nwb],
  litToks "var" ++ [.wsPlus] ++ litToks "dueIso" ++ [.nwb]]

/-- `hasDeclaration` test of `evaluateSnippet`. -/
def hasDeclaration (code : List Char) : Bool :=
  declPats.any (fun p => scanMatch p code)

/-- `/dueIso\s*=/`. -/
def assignPat : List PatTok := litToks "dueIso" ++ [.wsStar, .lit '=']

/-- `hasAssignment` test of `evaluateSnippet`. -/
def hasAssignment (code : List Char) : Bool := scanMatch assignPat code

/-- `/\breturn\s+dueIso\s*;?/`: since the trailing `\s*;?` can match the
empty string, the test is equivalent to finding `\breturn\s+dueIso`. -/
def returnPat : List PatTok := litToks "return" ++ [.wsPlus] ++ litToks "dueIso"

/-- `hasReturn` test of `evaluateSnippet`. -/
def hasReturnStmt (code : List Char) : Bool := matchBAnywhere returnPat code

/-- The typed failures of `evaluateSnippet` (each a thrown `Error` in the
source, distinguished by its message). -/
inductive EvalError where
  | violation (patternName : String)
  | mustDeclareOrAssign
  | thrown
  | notAString
  | invalidIso (result : String)
deriving DecidableEq, Repr

/-- Outcome of running the normalized snippet (`new Function` + call). -/
inductive JsOutcome where
  | throws
  | nonString
  | str (s : String)
deriving DecidableEq, Repr

/-- The declaration the normalization prepends. -/
def declPrefix : List Char := "let dueIso;\n".toList

/-- The final return statement the normalization appends. -/
def returnSuffix : List Char := "\nreturn dueIso;".toList

/-- `evaluateSnippet` (`src/ai/evalSnippet.ts`).  `exec` is the oracle for
running JS code against the fixed context (step 3); `isoValid` is the
oracle for `DateTime.fromISO(result).isValid` (step 4).  Steps 1 and 2
(denylist scan and output-contract normalization) are fully modelled. -/
def evaluateSnippet (exec : List Char → JsOutcome) (isoValid : String → Bool)
    (code : List Char) : Except EvalError String :=
  match findViolation code with
  | some name => .error (.violation name)
  | none =>
    if !hasDeclaration code && !hasAssignment code then
      .error .mustDeclareOrAssign
    else
      let code1 := if !hasDeclaration code && hasAssignment code then
        declPrefix ++ code else code
      let code2 := if hasReturnStmt code1 then code1 else code1 ++ returnSuffix
      match exec ("\"use strict\";\n".toList ++ code2) with
      | .throws => .error .thrown
      | .nonString => .error .notAString
      | .str s => if isoValid s then .ok s else .error (.invalidIso s)

/-! ## Europe/Paris time and `computeReminders` (`src/tasks/reminders.ts`)

Instants are ms since the Unix epoch.  Civil dates are epoch day numbers
(in bijection with proleptic-Gregorian year/month/day; the luxon calendar
operations map through that bijection: `minus \x7bdays: 1\x7d` is day number − 1,
and the year of a date is recovered by `yearOfDay`).  Europe/Paris follows
the EU rule: UTC+1, with UTC+2 between 01:00 UTC of the last Sunday of
March and 01:00 UTC of the last Sunday of October. -/

/-- Milliseconds per day. -/
def msPerDay : Int := 86400000

/-- The CET offset (UTC+1) in ms. -/
def cetOffset : Int := 3600000

/-- The CEST offset (UTC+2) in ms. -/
def cestOffset : Int := 7200000

/-- Epoch day number of 1 January of year `y` (proleptic Gregorian). -/
def jan1Day (y : Int) : Int :=
  365 * (y - 1970) +
    ((y - 1) / 4 - (y - 1) / 100 + (y - 1) / 400) - 477

/-- The Gregorian year containing epoch day `d`. -/
def yearOfDay (d : Int) : Int :=
  let g := 1970 + 400 * d / 146097
  if d < jan1Day g then g - 1
  else if d < jan1Day (g + 1) then g
  else g + 1

/-- Gregorian leap year. -/
def isLeap (y : Int) : Bool :=
  decide (y % 4 = 0) &&
    (!decide (y % 100 = 0) || decide (y % 400 = 0))

/-- Epoch day of 31 March of year `y`. -/
def mar31Day (y : Int) : Int := jan1Day y + 89 + (if isLeap y then 1 else 0)

/-- Epoch day of 31 October of year `y`. -/
def oct31Day (y : Int) : Int := jan1Day y + 303 + (if isLeap y then 1 else 0)

/-- The last Sunday on or before epoch day `d` (day 0 = Thursday 1970-01-01,
so day `d` is a Sunday iff `(d + 4) % 7 = 0`). -/
def lastSundayOnOrBefore (d : Int) : Int := d - (d + 4) % 7

/-- Instant of the spring DST transition of year `y`
(01:00 UTC, last Sunday of March). -/
def marchTransMs (y : Int) : Int :=
  lastSundayOnOrBefore (mar31Day y) * msPerDay + 3600000

/-- Instant of the autumn DST transition of year `y`
(01:00 UTC, last Sunday of October). -/
def octTransMs (y : Int) : Int :=
  lastSundayOnOrBefore (oct31Day y) * msPerDay + 3600000

/-- Whether Europe/Paris observes daylight saving time at instant `t`. -/
def isDST (t : Int) : Bool :=
  let y := yearOfDay (t / msPerDay)
  decide (marchTransMs y ≤ t) && decide (t < octTransMs y)

/-- Europe/Paris UTC offset (ms) at instant `t`. -/
def parisOffset (t : Int) : Int := if isDST t then cestOffset else cetOffset

/-- Luxon's `fixOffset`: turns a local civil timestamp into an instant,
starting from the guess offset `o0` (the offset carried by the `DateTime`
the calendar arithmetic started from).  Returns the instant and the offset
the resulting `DateTime` stores. -/
def fixOffset (localTs o0 : Int) : Int × Int :=
  let u1 := localTs - o0
  let o1 := parisOffset u1
  if o1 = o0 then (u1, o1)
  else
    let u2 := localTs - o1
    let o2 := parisOffset u2
    if o2 = o1 then (u2, o2)
    else (localTs - min o1 o2, max o1 o2)

/-- `computeReminders` (`src/tasks/reminders.ts`), following luxon's
semantics: `setZone` keeps the instant and derives Paris civil fields;
`minus \x7bdays: 1\x7d` decrements the civil date keeping the time of day and
re-resolves via `fixOffset` with the previous offset; `set \x7bhour: 21, ...\x7d`
overwrites the time of day on the resolved civil fields and re-resolves;
`minus \x7bhours: 1\x7d` is plain instant arithmetic. -/
def computeReminders (dueAtIso : Int) : List Reminder :=
  let o := parisOffset dueAtIso
  let l := dueAtIso + o
  let lday := l / msPerDay
  let ltime := l % msPerDay
  let l1 := (lday - 1) * msPerDay + ltime
  let p1 := fixOffset l1 o
  let civ1 := p1.1 + p1.2
  let l2 := civ1 / msPerDay * msPerDay + 75600000
  let p2 := fixOffset l2 p1.2
  [ { kind := .dayBefore2100, atIso := p2.1 },
    { kind := .oneHourBefore, atIso := dueAtIso - 3600000 },
    { kind := .atTime, atIso := dueAtIso } ]

/-- The Paris civil datetime of an instant, as local ms since the epoch:
`parisCivilMs t / msPerDay` is the civil date (epoch day number) and
`parisCivilMs t % msPerDay` the local time of day. -/
def parisCivilMs (t : Int) : Int := t + parisOffset t

/-! ## Matcher lemmas -/

/-- Decides that matching `ps` dies strictly inside `s`: whatever is
appended after `s`, `matchToks` returns `false`. -/
def failsWithin : List PatTok → List Char → Bool
  | [], _ => false
  | .lit c :: ps, x :: xs => if decide (x = c) then failsWithin ps xs else true
  | .lit _ :: _, [] => false
  | .wsStar :: ps, xs =>
      let r := xs.dropWhile isWsChar
      if r.isEmpty then false else failsWithin ps r
  | .wsPlus :: ps, x :: xs =>
      if isWsChar x then
        let r := xs.dropWhile isWsChar
        if r.isEmpty then false else failsWithin ps r
      else true
  | .wsPlus :: _, [] => false
  | .nwb :: _, [] => false
  | .nwb :: ps, x :: xs => if isWordChar x then true else failsWithin ps (x :: xs)

/-- Decides that matching `ps` succeeds strictly inside `s`: whatever is
appended after `s`, `matchToks` returns `true`. -/
def succeedsWithin : List PatTok → List Char → Bool
  | [], _ => true
  | .lit c :: ps, x :: xs => decide (x = c) && succeedsWithin ps xs
  | .lit _ :: _, [] => false
  | .wsStar :: ps, xs =>
      let r := xs.dropWhile isWsChar
      !r.isEmpty && succeedsWithin ps r
  | .wsPlus :: ps, x :: xs =>
      isWsChar x &&
        (let r := xs.dropWhile isWsChar
         !r.isEmpty && succeedsWithin ps r)
  | .wsPlus :: _, [] => false
  | .nwb :: _, [] => false
  | .nwb :: ps, x :: xs => !isWordChar x && succeedsWithin ps (x :: xs)

theorem matchToks_append_false (ps : List PatTok) :
    ∀ s t : List Char, failsWithin ps s = true →
      matchToks ps (s ++ t) = false := by
  induction ps with
  | nil => intro s t h; simp [failsWithin] at h
  | cons p ps ih =>
    intro s t h
    cases p with
    | lit c =>
      cases s with
      | nil => simp [failsWithin] at h
      | cons x xs =>
        by_cases hx : x = c
        · simp only [failsWithin, hx] at h
          simp only [decide_eq_true_eq, if_pos rfl] at h
          simp [matchToks, hx, ih xs t h]
        · simp [matchToks, hx]
    | wsStar =>
      simp only [failsWithin] at h
      rcases he : (s.dropWhile isWsChar).isEmpty with _ | _
      · simp only [he, Bool.false_eq_true, if_false] at h
        have hd : (s ++ t).dropWhile isWsChar = s.dropWhile isWsChar ++ t := by
          rw [List.dropWhile_append, he]
          simp
        simp [matchToks, hd, ih _ t h]
      · simp [he] at h
    | wsPlus =>
      cases s with
      | nil => simp [failsWithin] at h
      | cons x xs =>
        by_cases hx : isWsChar x = true
        · simp only [failsWithin, hx, if_true] at h
          rcases he : (xs.dropWhile isWsChar).isEmpty with _ | _
          · simp only [he, Bool.false_eq_true, if_false] at h
            have hd : (xs ++ t).dropWhile isWsChar = xs.dropWhile isWsChar ++ t := by
              rw [List.dropWhile_append, he]
              simp
            simp [matchToks, hx, hd, ih _ t h]
          · simp [he] at h
        · simp [matchToks, hx]
    | nwb =>
      cases s with
      | nil => simp [failsWithin] at h
      | cons x xs =>
        by_cases hx : isWordChar x = true
        · simp [matchToks, hx]
        · simp only [failsWithin, hx, Bool.false_eq_true, if_false] at h
          have := ih (x :: xs) t h
          simp only [matchToks, hx, List.cons_append] at this ⊢
          simpa using this

theorem matchToks_append_true (ps : List PatTok) :
    ∀ s t : List Char, succeedsWithin ps s = true →
      matchToks ps (s ++ t) = true := by
  induction ps with
  | nil => intro s t _; simp [matchToks]
  | cons p ps ih =>
    intro s t h
    cases p with
    | lit c =>
      cases s with
      | nil => simp [succeedsWithin] at h
      | cons x xs =>
        simp only [succeedsWithin, Bool.and_eq_true, decide_eq_true_eq] at h
        simp [matchToks, h.1, ih xs t h.2]
    | wsStar =>
      simp only [succeedsWithin, Bool.and_eq_true, Bool.not_eq_true'] at h
      have hd : (s ++ t).dropWhile isWsChar = s.dropWhile isWsChar ++ t := by
        rw [List.dropWhile_append, h.1]
        simp
      simp [matchToks, hd, ih _ t h.2]
    | wsPlus =>
      cases s with
      | nil => simp [succeedsWithin] at h
      | cons x xs =>
        simp only [succeedsWithin, Bool.and_eq_true, Bool.not_eq_true'] at h
        have hd : (xs ++ t).dropWhile isWsChar = xs.dropWhile isWsChar ++ t := by
          rw [List.dropWhile_append, h.2.1]
          simp
        simp [matchToks, h.1, hd, ih _ t h.2.2]
    | nwb =>
      cases s with
      | nil => simp [succeedsWithin] at h
      | cons x xs =>
        simp only [succeedsWithin, Bool.and_eq_true, Bool.not_eq_true'] at h
        have := ih (x :: xs) t h.2
        simp only [matchToks, List.cons_append, h.1] at this ⊢
        simpa using this

/-- All nonempty suffixes of `pre` kill the pattern before reaching the
appended continuation. -/
def allTailsFail (ps : List PatTok) (pre : List Char) : Bool :=
  pre.tails.all (fun suf => suf.isEmpty || failsWithin ps suf)

theorem scanMatch_append (ps : List PatTok) :
    ∀ pre code : List Char, allTailsFail ps pre = true →
      scanMatch ps (pre ++ code) = scanMatch ps code := by
  intro pre
  induction pre with
  | nil => intro code _; rfl
  | cons c pre ih =>
    intro code h
    simp only [allTailsFail, List.tails_cons, List.all_cons, Bool.and_eq_true] at h
    have h1 : failsWithin ps (c :: pre) = true := by simpa using h.1
    have h2 : allTailsFail ps pre = true := by
      simpa [allTailsFail] using h.2
    have hstep : scanMatch ps ((c :: pre) ++ code) =
        (matchToks ps ((c :: pre) ++ code) || scanMatch ps (pre ++ code)) := rfl
    rw [hstep, matchToks_append_false ps (c :: pre) code h1, ih code h2,
      Bool.false_or]

theorem scanMatch_of_matchToks (ps : List PatTok) (s : List Char)
    (h : matchToks ps s = true) : scanMatch ps s = true := by
  cases s with
  | nil => simpa [scanMatch] using h
  | cons x xs => simp [scanMatch, h]

theorem find?_congr {α} (p q : α → Bool) :
    ∀ l : List α, (∀ x ∈ l, p x = q x) → l.find? p = l.find? q := by
  intro l
  induction l with
  | nil => intro _; rfl
  | cons a l ih =>
    intro h
    have ha := h a (List.mem_cons_self a l)
    rw [List.find?_cons, List.find?_cons, ha, ih (fun x hx => h x (List.mem_cons_of_mem a hx))]

theorem findViolation_prepend (code : List Char)
    (hall : DENYLIST_PATTERNS.all (fun p => allTailsFail p.2 declPrefix) = true) :
    findViolation (declPrefix ++ code) = findViolation code := by
  unfold findViolation
  have hfind : DENYLIST_PATTERNS.find? (fun p => scanMatch p.2 (declPrefix ++ code)) =
      DENYLIST_PATTERNS.find? (fun p => scanMatch p.2 code) := by
    apply find?_congr
    intro p hp
    exact scanMatch_append p.2 declPrefix code ((List.all_eq_true.mp hall) p hp)
  rw [hfind]

theorem hasDeclaration_prepend (code : List Char) :
    hasDeclaration (declPrefix ++ code) = true := by
  unfold hasDeclaration
  apply List.any_eq_true.mpr
  refine ⟨litToks "let" ++ [.wsPlus] ++ litToks "dueIso" ++ [.nwb], ?_, ?_⟩
  · simp [declPats]
  · exact scanMatch_of_matchToks _ _ (matchToks_append_true _ declPrefix code (by decide))

/-- C3: every code string matching at least one denylist pattern makes
`evaluateSnippet` fail with a `SandboxViolation` naming a matched pattern,
and the snippet is never executed: the result does not depend on the
execution oracle (nor on the result-validation oracle), so this holds even
when executing the snippet would have produced a valid instant. -/
theorem evaluateSnippet_denylist_rejects (code : List Char)
    (h : ∃ p ∈ DENYLIST_PATTERNS, scanMatch p.2 code = true) :
    ∃ p, p ∈ DENYLIST_PATTERNS ∧ scanMatch p.2 code = true ∧
      ∀ (exec : List Char → JsOutcome) (isoValid : String → Bool),
        evaluateSnippet exec isoValid code = .error (.violation p.1) := by
  obtain ⟨q, hq, hmatch⟩ := h
  have hsome : (DENYLIST_PATTERNS.find? (fun p => scanMatch p.2 code)).isSome := by
    rw [List.find?_isSome]
    exact ⟨q, hq, hmatch⟩
  obtain ⟨p, hp⟩ := Option.isSome_iff_exists.mp hsome
  have hpm : scanMatch p.2 code = true := by
    have := List.find?_some hp
    simpa using this
  refine ⟨p, List.mem_of_find?_eq_some hp, hpm, ?_⟩
  intro exec isoValid
  unfold evaluateSnippet findViolation
  rw [hp]
  rfl

/-- Witness for C3: a snippet with `fetch (` is rejected with a violation,
even though its execution oracle would return a valid instant. -/
theorem evaluateSnippet_denylist_rejects_witness :
    (∃ p ∈ DENYLIST_PATTERNS,
      scanMatch p.2 (String.toList "const dueIso = fetch (url); return dueIso;") = true) ∧
    ∃ name,
      evaluateSnippet (fun _ => .str "2024-03-10T20:00:00.000Z") (fun _ => true)
        (String.toList "const dueIso = fetch (url); return dueIso;") =
          .error (.violation name) := by
  constructor
  · decide
  · obtain ⟨p, _, _, hall⟩ := evaluateSnippet_denylist_rejects
      (String.toList "const dueIso = fetch (url); return dueIso;") (by decide)
    exact ⟨p.1, hall _ _⟩

/-- C6: on code that passes the denylist and assigns to `dueIso` without
declaring it, `evaluateSnippet` gives the same result as on the equivalent
code that declares it explicitly (the normalization prepends
`let dueIso;` and the rest of the pipeline coincides), for every execution
context (oracle). -/
theorem evaluateSnippet_assign_eq_declared (code : List Char)
    (hviol : findViolation code = none)
    (hdecl : hasDeclaration code = false)
    (hassign : hasAssignment code = true)
    (exec : List Char → JsOutcome) (isoValid : String → Bool) :
    evaluateSnippet exec isoValid code =
      evaluateSnippet exec isoValid (declPrefix ++ code) := by
  have hviol' : findViolation (declPrefix ++ code) = none := by
    rw [findViolation_prepend code (by decide), hviol]
  have hdecl' : hasDeclaration (declPrefix ++ code) = true :=
    hasDeclaration_prepend code
  unfold evaluateSnippet
  simp only [hviol, hviol', hdecl, hdecl', hassign]
  simp

/-- Witness for C6 at a concrete undeclared-assignment snippet. -/
theorem evaluateSnippet_assign_eq_declared_witness :
    (findViolation (String.toList "dueIso = ctx.nowIso") = none ∧
      hasDeclaration (String.toList "dueIso = ctx.nowIso") = false ∧
      hasAssignment (String.toList "dueIso = ctx.nowIso") = true) ∧
    evaluateSnippet (fun _ => .str "2024-03-10T20:00:00.000Z") (fun _ => true)
        (String.toList "dueIso = ctx.nowIso") =
      evaluateSnippet (fun _ => .str "2024-03-10T20:00:00.000Z") (fun _ => true)
        (declPrefix ++ String.toList "dueIso = ctx.nowIso") := by
  refine ⟨⟨by decide, by decide, by decide⟩, ?_⟩
  exact evaluateSnippet_assign_eq_declared _ (by decide) (by decide) (by decide) _ _

/-! ## Store lemmas -/

theorem updateFirst_map {α β} (p : α → Bool) (f : α → α) (g : α → β)
    (h : ∀ a, g (f a) = g a) :
    ∀ l : List α, (updateFirst p f l).map g = l.map g := by
  intro l
  induction l with
  | nil => rfl
  | cons x xs ih =>
    by_cases hp : p x = true
    · simp [updateFirst, hp, h]
    · simp [updateFirst, hp, ih]

theorem removeFirstById_subset (x : Task) :
    ∀ (l : List Task) (i : String), x ∈ (removeFirstById l i).1 → x ∈ l := by
  intro l
  induction l with
  | nil => intro i h; simp [removeFirstById] at h
  | cons t ts ih =>
    intro i h
    by_cases ht : t.id = i
    · simp only [removeFirstById, ht, if_pos rfl] at h
      exact List.mem_cons_of_mem t (by simpa using h)
    · simp only [removeFirstById, ht, if_false] at h
      rcases List.mem_cons.mp (by simpa using h) with h' | h'
      · exact h' ▸ List.mem_cons_self t ts
      · exact List.mem_cons_of_mem t (ih i h')

theorem removeAll_subset (x : Task) :
    ∀ (ids : List String) (l : List Task), x ∈ (removeAll l ids).1 → x ∈ l := by
  intro ids
  induction ids with
  | nil => intro l h; exact h
  | cons i is ih =>
    intro l h
    have h1 : x ∈ (removeAll (removeFirstById l i).1 is).1 := h
    exact removeFirstById_subset x l i (ih _ h1)

theorem removeFirstById_miss (t : Task) (ts : List Task) (i : String)
    (h : ¬t.id = i) :
    removeFirstById (t :: ts) i =
      (t :: (removeFirstById ts i).1, (removeFirstById ts i).2) := by
  simp [removeFirstById, h]

theorem removeAll_skip (t : Task) :
    ∀ (ids : List String) (ts : List Task), (∀ i ∈ ids, ¬t.id = i) →
      removeAll (t :: ts) ids =
        (t :: (removeAll ts ids).1, (removeAll ts ids).2) := by
  intro ids
  induction ids with
  | nil => intro ts _; rfl
  | cons i is ih =>
    intro ts h
    have hi : ¬t.id = i := h i (List.mem_cons_self i is)
    have hrest := ih (removeFirstById ts i).1
      (fun j hj => h j (List.mem_cons_of_mem i hj))
    simp [removeAll, removeFirstById_miss t ts i hi, hrest]

theorem removeAll_filter (q : Task → Bool) :
    ∀ tasks : List Task, (tasks.map Task.id).Nodup →
      removeAll tasks ((tasks.filter q).map Task.id) =
        (tasks.filter (fun t => !q t), (tasks.filter q).map Task.id) := by
  intro tasks
  induction tasks with
  | nil => intro _; rfl
  | cons t ts ih =>
    intro hnd
    rw [List.map_cons, List.nodup_cons] at hnd
    by_cases hq : q t = true
    · have hm : ((t :: ts).filter q).map Task.id =
          t.id :: (ts.filter q).map Task.id := by
        simp [List.filter_cons, hq]
      have h1 : removeFirstById (t :: ts) t.id = (ts, true) := by
        simp [removeFirstById]
      rw [hm]
      simp [removeAll, h1, ih hnd.2, List.filter_cons, hq]
    · have hm : ((t :: ts).filter q).map Task.id = (ts.filter q).map Task.id := by
        simp [List.filter_cons, hq]
      have hids : ∀ i ∈ (ts.filter q).map Task.id, ¬t.id = i := by
        intro i hi heq
        obtain ⟨u, hu, hui⟩ := List.mem_map.mp hi
        apply hnd.1
        rw [heq, ← hui]
        exact List.mem_map_of_mem Task.id (List.mem_of_mem_filter hu)
      rw [hm, removeAll_skip t _ ts hids, ih hnd.2]
      simp [List.filter_cons, hq]

theorem cleanupMark_id (now : Int) (t : Task) :
    (cleanupMark now t).id = t.id := by
  unfold cleanupMark
  split <;> rfl

theorem cleanupMark_status (now : Int) (t : Task) :
    (cleanupMark now t).status = t.status := by
  unfold cleanupMark
  split <;> rfl

theorem markPastReminder_kind (now : Int) (r : Reminder) :
    (markPastReminder now r).kind = r.kind := by
  unfold markPastReminder
  split
  · rfl
  · split <;> rfl

theorem markPastReminder_atIso (now : Int) (r : Reminder) :
    (markPastReminder now r).atIso = r.atIso := by
  unfold markPastReminder
  split
  · rfl
  · split <;> rfl

theorem markPastReminder_sentAtIso (now : Int) (r : Reminder) :
    (markPastReminder now r).sentAtIso = r.sentAtIso := by
  unfold markPastReminder
  split
  · rfl
  · split <;> rfl

theorem atTimePast_cleanupMark (now : Int) (t : Task) :
    atTimePast now (cleanupMark now t) = atTimePast now t := by
  unfold cleanupMark
  split
  · unfold atTimePast
    simp only [List.find?_map]
    have hcong : t.reminders.find?
        ((fun r => decide (r.kind = ReminderKind.atTime)) ∘ markPastReminder now) =
        t.reminders.find? (fun r => decide (r.kind = ReminderKind.atTime)) := by
      apply find?_congr
      intro r _
      simp [Function.comp, markPastReminder_kind]
    rw [hcong]
    cases hf : t.reminders.find? (fun r => decide (r.kind = ReminderKind.atTime)) with
    | none => rfl
    | some r => simp [markPastReminder_atIso]
  · rfl

theorem cleanupRemoves_cleanupMark (now : Int) (t : Task) :
    cleanupRemoves now (cleanupMark now t) = cleanupRemoves now t := by
  unfold cleanupRemoves
  rw [cleanupMark_status, atTimePast_cleanupMark]

/-- Characterization of the cleanup under distinct task ids: the surviving
tasks are exactly the non-removed ones (each with its reminders marked),
and the removed ids are exactly the ids of the removed tasks. -/
theorem cleanup_eq (data : TasksFile) (now : Int)
    (hnd : (data.tasks.map Task.id).Nodup) :
    cleanupOldRemindersAndTasks data now =
      ({ data with tasks :=
          (data.tasks.filter (fun t => !cleanupRemoves now t)).map (cleanupMark now) },
        { removedTaskIds := (data.tasks.filter (cleanupRemoves now)).map Task.id
          skipped := (data.tasks.filter
            (fun t => decide (t.status = .scheduled))).flatMap
              (newlySkippedPairs now) }) := by
  have hcm : (Task.id ∘ cleanupMark now) = Task.id := funext (cleanupMark_id now)
  have hids : (data.tasks.filter (cleanupRemoves now)).map Task.id =
      ((data.tasks.map (cleanupMark now)).filter (cleanupRemoves now)).map Task.id := by
    rw [List.filter_map, List.map_map, hcm]
    have h1 : data.tasks.filter (cleanupRemoves now ∘ cleanupMark now) =
        data.tasks.filter (cleanupRemoves now) :=
      List.filter_congr (fun t _ => by
        simp [Function.comp, cleanupRemoves_cleanupMark])
    rw [h1]
  have hnd' : ((data.tasks.map (cleanupMark now)).map Task.id).Nodup := by
    rw [List.map_map, hcm]
    exact hnd
  have hf : (data.tasks.map (cleanupMark now)).filter (fun t => !cleanupRemoves now t)
      = (data.tasks.filter (fun t => !cleanupRemoves now t)).map (cleanupMark now) := by
    rw [List.filter_map]
    have h1 : data.tasks.filter ((fun t => !cleanupRemoves now t) ∘ cleanupMark now) =
        data.tasks.filter (fun t => !cleanupRemoves now t) :=
      List.filter_congr (fun t _ => by
        simp [Function.comp, cleanupRemoves_cleanupMark])
    rw [h1]
  unfold cleanupOldRemindersAndTasks
  rw [hids, removeAll_filter (cleanupRemoves now) _ hnd', hf, ← hids]

theorem length_le_one_eq {α} {l : List α} (h : l.length ≤ 1) {a b : α}
    (ha : a ∈ l) (hb : b ∈ l) : a = b := by
  cases l with
  | nil => simp at ha
  | cons x xs =>
    cases xs with
    | nil =>
      simp only [List.mem_singleton] at ha hb
      rw [ha, hb]
    | cons y ys => simp at h

theorem atTimePast_eq_any (now : Int) (t : Task)
    (hone : (t.reminders.filter
      (fun r => decide (r.kind = ReminderKind.atTime))).length ≤ 1) :
    atTimePast now t = t.reminders.any
      (fun r => decide (r.kind = ReminderKind.atTime) && decide (r.atIso ≤ now)) := by
  unfold atTimePast
  cases hf : t.reminders.find? (fun r => decide (r.kind = ReminderKind.atTime)) with
  | none =>
    have hnone := List.find?_eq_none.mp hf
    symm
    rw [List.any_eq_false]
    intro x hx hcontra
    simp only [Bool.and_eq_true, decide_eq_true_eq] at hcontra
    exact hnone x hx (by simp [hcontra.1])
  | some r =>
    have hr_mem := List.mem_of_find?_eq_some hf
    have hr_kind : decide (r.kind = ReminderKind.atTime) = true := by
      have := List.find?_some hf
      simpa using this
    by_cases hdue : r.atIso ≤ now
    · have hany : t.reminders.any
          (fun r => decide (r.kind = ReminderKind.atTime) && decide (r.atIso ≤ now)) = true :=
        List.any_eq_true.mpr ⟨r, hr_mem, by simp [hr_kind, hdue]⟩
      rw [hany]
      simp [hdue]
    · have hany : t.reminders.any
          (fun r => decide (r.kind = ReminderKind.atTime) && decide (r.atIso ≤ now)) = false := by
        rw [List.any_eq_false]
        intro x hx hcontra
        simp only [Bool.and_eq_true, decide_eq_true_eq] at hcontra
        have hxr : x = r := length_le_one_eq hone
          (List.mem_filter.mpr ⟨hx, by simp [hcontra.1]⟩)
          (List.mem_filter.mpr ⟨hr_mem, hr_kind⟩)
        exact hdue (hxr ▸ hcontra.2)
      rw [hany]
      simp [hdue]

/-- C1: under well-formed data (distinct task ids, at most one `atTime`
reminder per task), `cleanupOldRemindersAndTasks now` removes exactly the
scheduled tasks whose `atTime` reminder has `atIso ≤ now` — regardless of
any `skippedReason` or `sentAtIso` on it, which the removal predicate never
inspects — and no other task; `removedTaskIds` is exactly the list of ids
of the removed tasks. -/
theorem cleanup_removes_exactly (data : TasksFile) (now : Int)
    (hnd : (data.tasks.map Task.id).Nodup)
    (hone : ∀ t ∈ data.tasks,
      (t.reminders.filter (fun r => decide (r.kind = ReminderKind.atTime))).length ≤ 1) :
    (cleanupOldRemindersAndTasks data now).2.removedTaskIds =
      (data.tasks.filter (fun t => decide (t.status = TaskStatus.scheduled) &&
        t.reminders.any (fun r => decide (r.kind = ReminderKind.atTime) &&
          decide (r.atIso ≤ now)))).map Task.id ∧
    (cleanupOldRemindersAndTasks data now).1.tasks.map Task.id =
      (data.tasks.filter (fun t => !(decide (t.status = TaskStatus.scheduled) &&
        t.reminders.any (fun r => decide (r.kind = ReminderKind.atTime) &&
          decide (r.atIso ≤ now))))).map Task.id := by
  have hpt : ∀ t ∈ data.tasks, cleanupRemoves now t =
      (decide (t.status = TaskStatus.scheduled) &&
        t.reminders.any (fun r => decide (r.kind = ReminderKind.atTime) &&
          decide (r.atIso ≤ now))) := by
    intro t ht
    unfold cleanupRemoves
    rw [atTimePast_eq_any now t (hone t ht)]
  rw [cleanup_eq data now hnd]
  constructor
  · simp only
    rw [List.filter_congr hpt]
  · simp only [List.map_map]
    rw [show (Task.id ∘ cleanupMark now) = Task.id from funext (cleanupMark_id now)]
    rw [List.filter_congr (fun t ht => by rw [hpt t ht])]

/-- Witness for C1: the scheduled task with an already-skipped past
`atTime` reminder is removed, the scheduled task with a future `atTime`
and the cancelled task with a past `atTime` are kept. -/
theorem cleanup_removes_exactly_witness :
    (cleanupOldRemindersAndTasks
      ⟨1, "Europe/Paris",
        [⟨"a", 7, "m1", 50, 0, 0, TaskStatus.scheduled,
            [⟨ReminderKind.atTime, 50, none, some "past"⟩]⟩,
         ⟨"b", 7, "m2", 200, 0, 0, TaskStatus.scheduled,
            [⟨ReminderKind.atTime, 200, none, none⟩]⟩,
         ⟨"c", 7, "m3", 50, 0, 0, TaskStatus.cancelled,
            [⟨ReminderKind.atTime, 50, none, none⟩]⟩]⟩ 100).2.removedTaskIds
      = ["a"] ∧
    (cleanupOldRemindersAndTasks
      ⟨1, "Europe/Paris",
        [⟨"a", 7, "m1", 50, 0, 0, TaskStatus.scheduled,
            [⟨ReminderKind.atTime, 50, none, some "past"⟩]⟩,
         ⟨"b", 7, "m2", 200, 0, 0, TaskStatus.scheduled,
            [⟨ReminderKind.atTime, 200, none, none⟩]⟩,
         ⟨"c", 7, "m3", 50, 0, 0, TaskStatus.cancelled,
            [⟨ReminderKind.atTime, 50, none, none⟩]⟩]⟩ 100).1.tasks.map Task.id
      = ["b", "c"] := by
  have h := cleanup_removes_exactly
    ⟨1, "Europe/Paris",
      [⟨"a", 7, "m1", 50, 0, 0, TaskStatus.scheduled,
          [⟨ReminderKind.atTime, 50, none, some "past"⟩]⟩,
       ⟨"b", 7, "m2", 200, 0, 0, TaskStatus.scheduled,
          [⟨ReminderKind.atTime, 200, none, none⟩]⟩,
       ⟨"c", 7, "m3", 50, 0, 0, TaskStatus.cancelled,
          [⟨ReminderKind.atTime, 50, none, none⟩]⟩]⟩ 100
    (by decide) (by decide)
  exact ⟨h.1.trans (by decide), h.2.trans (by decide)⟩

/-- C4 counterexample: `markReminderSent` on a reminder whose
`skippedReason` is already set produces a reminder with both `sentAtIso`
and `skippedReason` set, so the store operations do not preserve mutual
exclusivity of the two fields. -/
theorem markReminderSent_violates_exclusivity :
    ((markReminderSent
      ⟨1, "Europe/Paris",
        [⟨"t1", 7, "m", 0, 0, 0, TaskStatus.scheduled,
            [⟨ReminderKind.atTime, 0, none, some "past"⟩]⟩]⟩
      "t1" ReminderKind.atTime 100).tasks.map
        (fun t => t.reminders.map (fun r => (r.sentAtIso, r.skippedReason)))) =
      [[(some 100, some "past")]] := by decide

theorem forall₂_map_self {α β : Type} {R : α → β → Prop} (f : α → β) :
    ∀ l : List α, (∀ a ∈ l, R a (f a)) → List.Forall₂ R l (l.map f) := by
  intro l
  induction l with
  | nil => intro _; exact List.Forall₂.nil
  | cons x xs ih =>
    intro h
    exact List.Forall₂.cons (h x (List.mem_cons_self x xs))
      (ih (fun a ha => h a (List.mem_cons_of_mem x ha)))

/-- C4 amended: no store operation ever clears `sentAtIso` or
`skippedReason` — `markReminderSent` leaves every `skippedReason`
unchanged, `markReminderSkipped` leaves every `sentAtIso` unchanged, and
the cleanup preserves both fields except for setting
`skippedReason := "past"` on due reminders that had neither field set —
but `markReminderSent` / `markReminderSkipped` write their own field
unconditionally, so mutual exclusivity is not enforced by them. -/
theorem store_never_clears_marks :
    (∀ (data : TasksFile) (taskId : String) (kind : ReminderKind) (now : Int),
      (markReminderSent data taskId kind now).tasks.map
          (fun t => t.reminders.map Reminder.skippedReason) =
        data.tasks.map (fun t => t.reminders.map Reminder.skippedReason)) ∧
    (∀ (data : TasksFile) (taskId : String) (kind : ReminderKind) (reason : String),
      (markReminderSkipped data taskId kind reason).tasks.map
          (fun t => t.reminders.map Reminder.sentAtIso) =
        data.tasks.map (fun t => t.reminders.map Reminder.sentAtIso)) ∧
    (∀ (data : TasksFile) (now : Int) (t' : Task),
      t' ∈ (cleanupOldRemindersAndTasks data now).1.tasks →
      ∃ t ∈ data.tasks, t'.id = t.id ∧
        List.Forall₂ (fun r r' : Reminder =>
          r'.sentAtIso = r.sentAtIso ∧
            (r'.skippedReason = r.skippedReason ∨
              (r.skippedReason = none ∧ r.sentAtIso = none ∧ r.atIso ≤ now ∧
                r'.skippedReason = some "past")))
          t.reminders t'.reminders) := by
  refine ⟨?_, ?_, ?_⟩
  · intro data taskId kind now
    unfold markReminderSent
    apply updateFirst_map
    intro t
    simp only
    apply updateFirst_map
    intro r
    rfl
  · intro data taskId kind reason
    unfold markReminderSkipped
    apply updateFirst_map
    intro t
    simp only
    apply updateFirst_map
    intro r
    rfl
  · intro data now t' ht'
    have hsub : t' ∈ data.tasks.map (cleanupMark now) := by
      unfold cleanupOldRemindersAndTasks at ht'
      exact removeAll_subset t' _ _ ht'
    obtain ⟨t, ht, rfl⟩ := List.mem_map.mp hsub
    refine ⟨t, ht, cleanupMark_id now t, ?_⟩
    unfold cleanupMark
    by_cases hs : t.status = TaskStatus.scheduled
    · rw [if_pos hs]
      apply forall₂_map_self
      intro r _
      unfold markPastReminder
      by_cases hsent : r.sentAtIso.isSome
      · rw [if_pos hsent]
        exact ⟨rfl, Or.inl rfl⟩
      · rw [if_neg hsent]
        by_cases hc : r.atIso ≤ now ∧ r.skippedReason = none
        · rw [if_pos hc]
          exact ⟨rfl, Or.inr ⟨hc.2, Option.not_isSome_iff_eq_none.mp hsent, hc.1, rfl⟩⟩
        · rw [if_neg hc]
          exact ⟨rfl, Or.inl rfl⟩
    · rw [if_neg hs]
      exact List.forall₂_same.mpr (fun r _ => ⟨rfl, Or.inl rfl⟩)

/-- Witness for C4's amended statement at a concrete store. -/
theorem store_never_clears_marks_witness :
    (markReminderSent
        ⟨1, "Europe/Paris",
          [⟨"t1", 7, "m", 0, 0, 0, TaskStatus.scheduled,
              [⟨ReminderKind.atTime, 3, none, some "past"⟩]⟩]⟩
        "t1" ReminderKind.atTime 9).tasks.map
        (fun t => t.reminders.map Reminder.skippedReason) = [[some "past"]] ∧
    (∃ t ∈ ([⟨"t1", 7, "m", 0, 0, 0, TaskStatus.cancelled, []⟩] : List Task),
      (⟨"t1", 7, "m", 0, 0, 0, TaskStatus.cancelled, []⟩ : Task).id = t.id ∧
        List.Forall₂ (fun r r' : Reminder =>
          r'.sentAtIso = r.sentAtIso ∧
            (r'.skippedReason = r.skippedReason ∨
              (r.skippedReason = none ∧ r.sentAtIso = none ∧ r.atIso ≤ (5 : Int) ∧
                r'.skippedReason = some "past")))
          t.reminders
          (⟨"t1", 7, "m", 0, 0, 0, TaskStatus.cancelled, []⟩ : Task).reminders) := by
  constructor
  · exact (store_never_clears_marks.1
      ⟨1, "Europe/Paris",
        [⟨"t1", 7, "m", 0, 0, 0, TaskStatus.scheduled,
            [⟨ReminderKind.atTime, 3, none, some "past"⟩]⟩]⟩
      "t1" ReminderKind.atTime 9).trans (by decide)
  · exact store_never_clears_marks.2.2
      ⟨1, "Europe/Paris", [⟨"t1", 7, "m", 0, 0, 0, TaskStatus.cancelled, []⟩]⟩ 5
      ⟨"t1", 7, "m", 0, 0, 0, TaskStatus.cancelled, []⟩ (by decide)

/-- C5 counterexample: the cleanup's skip-marking loop runs over scheduled
tasks only, so the past, unsent, unskipped reminder of a cancelled task is
neither flagged `skippedReason := "past"` nor reported in `skipped`. -/
theorem cleanup_ignores_cancelled_reminders :
    (cleanupOldRemindersAndTasks
      ⟨1, "Europe/Paris",
        [⟨"t1", 7, "m", 0, 0, 0, TaskStatus.cancelled,
            [⟨ReminderKind.oneHourBefore, 0, none, none⟩]⟩]⟩ 100).2.skipped = [] ∧
    (cleanupOldRemindersAndTasks
      ⟨1, "Europe/Paris",
        [⟨"t1", 7, "m", 0, 0, 0, TaskStatus.cancelled,
            [⟨ReminderKind.oneHourBefore, 0, none, none⟩]⟩]⟩ 100).1.tasks.map
        (fun t => t.reminders.map Reminder.skippedReason) = [[none]] := by
  constructor
  · decide
  · decide

/-- C5 amended: for every **scheduled** task and every reminder of it with
`atIso ≤ now`, no `sentAtIso` and no `skippedReason`, the cleanup reports
the `(taskId, kind)` pair in `skipped`; and when the task is not removed
(its `atTime` reminder is not due) the resulting file carries that
reminder with `skippedReason = "past"`.  Reminders of cancelled or done
tasks are not flagged. -/
theorem cleanup_skips_scheduled (data : TasksFile) (now : Int)
    (hnd : (data.tasks.map Task.id).Nodup)
    (t : Task) (ht : t ∈ data.tasks) (hsched : t.status = TaskStatus.scheduled)
    (r : Reminder) (hr : r ∈ t.reminders) (hdue : r.atIso ≤ now)
    (hsent : r.sentAtIso = none) (hskip : r.skippedReason = none) :
    (t.id, r.kind) ∈ (cleanupOldRemindersAndTasks data now).2.skipped ∧
    (atTimePast now t = false →
      ∃ t' ∈ (cleanupOldRemindersAndTasks data now).1.tasks,
        t'.id = t.id ∧ { r with skippedReason := some "past" } ∈ t'.reminders) := by
  rw [cleanup_eq data now hnd]
  constructor
  · apply List.mem_flatMap.mpr
    refine ⟨t, List.mem_filter.mpr ⟨ht, by simp [hsched]⟩, ?_⟩
    unfold newlySkippedPairs
    refine List.mem_map.mpr ⟨r, List.mem_filter.mpr ⟨hr, ?_⟩, rfl⟩
    simp [hsent, hdue, hskip]
  · intro hat
    refine ⟨cleanupMark now t, ?_, cleanupMark_id now t, ?_⟩
    · apply List.mem_map_of_mem
      apply List.mem_filter.mpr
      refine ⟨ht, ?_⟩
      simp [cleanupRemoves, hat]
    · unfold cleanupMark
      rw [if_pos hsched]
      simp only
      apply List.mem_map.mpr
      refine ⟨r, hr, ?_⟩
      simp [markPastReminder, hsent, hdue, hskip]

/-- Witness for C5's amended statement. -/
theorem cleanup_skips_scheduled_witness :
    ("s", ReminderKind.oneHourBefore) ∈
      (cleanupOldRemindersAndTasks
        ⟨1, "Europe/Paris",
          [⟨"s", 7, "m", 500, 0, 0, TaskStatus.scheduled,
              [⟨ReminderKind.oneHourBefore, 0, none, none⟩,
               ⟨ReminderKind.atTime, 500, none, none⟩]⟩]⟩ 100).2.skipped ∧
    ∃ t' ∈ (cleanupOldRemindersAndTasks
        ⟨1, "Europe/Paris",
          [⟨"s", 7, "m", 500, 0, 0, TaskStatus.scheduled,
              [⟨ReminderKind.oneHourBefore, 0, none, none⟩,
               ⟨ReminderKind.atTime, 500, none, none⟩]⟩]⟩ 100).1.tasks,
      t'.id = "s" ∧
        (⟨ReminderKind.oneHourBefore, 0, none, some "past"⟩ : Reminder) ∈ t'.reminders := by
  have h := cleanup_skips_scheduled
    ⟨1, "Europe/Paris",
      [⟨"s", 7, "m", 500, 0, 0, TaskStatus.scheduled,
          [⟨ReminderKind.oneHourBefore, 0, none, none⟩,
           ⟨ReminderKind.atTime, 500, none, none⟩]⟩]⟩ 100
    (by decide)
    ⟨"s", 7, "m", 500, 0, 0, TaskStatus.scheduled,
      [⟨ReminderKind.oneHourBefore, 0, none, none⟩,
       ⟨ReminderKind.atTime, 500, none, none⟩]⟩ (by decide) rfl
    ⟨ReminderKind.oneHourBefore, 0, none, none⟩ (by decide) (by decide) rfl rfl
  exact ⟨h.1, h.2 (by decide)⟩

/-- C8 counterexample: `cancelTask` on a task whose status is `done` moves
it to `cancelled`, so a task does leave a terminal status. -/
theorem cancelTask_moves_done_task :
    ((⟨1, "Europe/Paris",
        [⟨"t1", 7, "m", 0, 0, 0, TaskStatus.done, []⟩]⟩ : TasksFile).tasks.map
      Task.status = [TaskStatus.done]) ∧
    ((cancelTask
        ⟨1, "Europe/Paris", [⟨"t1", 7, "m", 0, 0, 0, TaskStatus.done, []⟩]⟩
        "t1" 50).2.map Task.status = some TaskStatus.cancelled) ∧
    ((cancelTask
        ⟨1, "Europe/Paris", [⟨"t1", 7, "m", 0, 0, 0, TaskStatus.done, []⟩]⟩
        "t1" 50).1.tasks.map Task.status = [TaskStatus.cancelled]) := by
  refine ⟨by decide, by decide, by decide⟩

/-- C8 amended: the store does not enforce one-way terminal transitions:
`cancelTask` sets the found task's status to `cancelled` whatever its
previous status (including `done`), and `updateTask` merges the partial
over the found task, so a partial containing `status` overwrites it with
any value (including back to `scheduled`). -/
theorem status_transitions_not_enforced :
    (∀ (data : TasksFile) (taskId : String) (now : Int),
      (cancelTask data taskId now).2 = (getTask data taskId).map
        (fun t => { t with status := TaskStatus.cancelled, updatedAtIso := now })) ∧
    (∀ (data : TasksFile) (taskId : String) (u : TaskPartial),
      (updateTask data taskId u).2 =
        (getTask data taskId).map (fun t => applyPartial t u)) ∧
    (∀ (t : Task) (u : TaskPartial),
      (applyPartial t u).status = u.status.getD t.status) := by
  refine ⟨?_, ?_, ?_⟩
  · intro data taskId now
    unfold cancelTask getTask
    cases hf : data.tasks.find? (fun t => decide (t.id = taskId)) <;> rfl
  · intro data taskId u
    unfold updateTask getTask
    cases hf : data.tasks.find? (fun t => decide (t.id = taskId)) <;> rfl
  · intro t u
    rfl

/-! ## Scheduler theorems -/

/-- The guard chain of `sendReminder`, as a decision: the task and
reminder to deliver when every guard passes, `none` otherwise. -/
def sendGuard (data : TasksFile) (taskId : String) (kind : ReminderKind)
    (now : Int) : Option (Task × Reminder) :=
  match getTask data taskId with
  | none => none
  | some task =>
    if task.status ≠ TaskStatus.scheduled then none
    else
      match task.reminders.find? (fun r => decide (r.kind = kind)) with
      | none => none
      | some reminder =>
        if reminder.sentAtIso.isSome then none
        else if reminder.skippedReason.isSome then none
        else if reminder.atIso - now < -gracePeriodMs then none
        else some (task, reminder)

theorem sendReminder_eq_guard (data : TasksFile) (st : SchedState)
    (taskId : String) (kind : ReminderKind) (now : Int) (sendOk : Bool) :
    sendReminder data st true taskId kind now sendOk =
      match sendGuard data taskId kind now with
      | none => (none, data, st)
      | some (task, _) =>
          (some (task.chatId, reminderMessage kind task.message),
            if sendOk then
              (if kind = ReminderKind.atTime then
                ((removeTask (markReminderSent data taskId kind now) taskId).1,
                  (cancelTimeoutsForTask st taskId).1)
              else (markReminderSent data taskId kind now, st))
            else (data, st)) := by
  unfold sendReminder sendGuard
  cases getTask data taskId with
  | none => rfl
  | some task =>
    by_cases hs : task.status ≠ TaskStatus.scheduled
    · simp only [if_pos hs]
      rfl
    · simp only [if_neg hs]
      cases task.reminders.find? (fun r => decide (r.kind = kind)) with
      | none => rfl
      | some rem =>
        by_cases hsent : rem.sentAtIso.isSome
        · simp only [if_pos hsent]
          rfl
        · simp only [if_neg hsent]
          by_cases hskip : rem.skippedReason.isSome
          · simp only [if_pos hskip]
            rfl
          · simp only [if_neg hskip]
            by_cases hg : rem.atIso - now < -gracePeriodMs
            · simp only [if_pos hg]
              rfl
            · simp only [if_neg hg]
              cases sendOk with
              | false => rfl
              | true =>
                by_cases hk : kind = ReminderKind.atTime
                · simp only [if_pos hk, if_pos rfl]
                  rfl
                · simp only [if_neg hk]
                  rfl

theorem sendGuard_some_iff (data : TasksFile) (taskId : String)
    (kind : ReminderKind) (now : Int) (task : Task) (rem : Reminder) :
    sendGuard data taskId kind now = some (task, rem) ↔
      (getTask data taskId = some task ∧ task.status = TaskStatus.scheduled ∧
        task.reminders.find? (fun r => decide (r.kind = kind)) = some rem ∧
        rem.sentAtIso = none ∧ rem.skippedReason = none ∧
        now - rem.atIso ≤ gracePeriodMs) := by
  unfold sendGuard
  cases hT : getTask data taskId with
  | none =>
    constructor
    · intro h; exact Option.noConfusion h
    · rintro ⟨hte, _⟩; exact Option.noConfusion hte
  | some task' =>
    dsimp only
    by_cases hs : task'.status ≠ TaskStatus.scheduled
    · rw [if_pos hs]
      constructor
      · intro h; exact Option.noConfusion h
      · rintro ⟨hte, hsched, _⟩
        cases Option.some_inj.mp hte
        exact (hs hsched).elim
    · rw [if_neg hs]
      have hs' : task'.status = TaskStatus.scheduled := not_not.mp hs
      cases hR : task'.reminders.find? (fun r => decide (r.kind = kind)) with
      | none =>
        constructor
        · intro h; exact Option.noConfusion h
        · rintro ⟨hte, _, hre, _⟩
          cases Option.some_inj.mp hte
          rw [hR] at hre
          exact Option.noConfusion hre
      | some rem' =>
        dsimp only
        by_cases hsent : rem'.sentAtIso.isSome
        · rw [if_pos hsent]
          constructor
          · intro h; exact Option.noConfusion h
          · rintro ⟨hte, _, hre, hsent', _⟩
            cases Option.some_inj.mp hte
            rw [hR] at hre
            cases Option.some_inj.mp hre
            rw [hsent'] at hsent
            simp at hsent
        · rw [if_neg hsent]
          by_cases hskip : rem'.skippedReason.isSome
          · rw [if_pos hskip]
            constructor
            · intro h; exact Option.noConfusion h
            · rintro ⟨hte, _, hre, _, hskip', _⟩
              cases Option.some_inj.mp hte
              rw [hR] at hre
              cases Option.some_inj.mp hre
              rw [hskip'] at hskip
              simp at hskip
          · rw [if_neg hskip]
            by_cases hg : rem'.atIso - now < -gracePeriodMs
            · rw [if_pos hg]
              constructor
              · intro h; exact Option.noConfusion h
              · rintro ⟨hte, _, hre, _, _, hgr⟩
                cases Option.some_inj.mp hte
                rw [hR] at hre
                cases Option.some_inj.mp hre
                omega
            · rw [if_neg hg]
              constructor
              · intro h
                obtain ⟨h1, h2⟩ := Prod.mk.injEq _ _ _ _ ▸ Option.some_inj.mp h
                subst h1
                subst h2
                exact ⟨rfl, hs', hR,
                  Option.not_isSome_iff_eq_none.mp hsent,
                  Option.not_isSome_iff_eq_none.mp hskip, by omega⟩
              · rintro ⟨hte, _, hre, _⟩
                cases Option.some_inj.mp hte
                rw [hR] at hre
                cases Option.some_inj.mp hre
                rfl

/-- C2: with a Notifier installed, `sendReminder` calls it if and only if
the task is found in the store, its status is `scheduled`, a reminder of
the requested kind exists, that reminder has neither `sentAtIso` nor
`skippedReason` set, and the invocation is at most 5 minutes past the
nominal fire instant; in every other case it returns without sending and
with the tasks file and the timer registry unchanged. -/
theorem sendReminder_guards (data : TasksFile) (st : SchedState)
    (taskId : String) (kind : ReminderKind) (now : Int) (sendOk : Bool) :
    ((sendReminder data st true taskId kind now sendOk).1.isSome ↔
      ∃ task, getTask data taskId = some task ∧
        task.status = TaskStatus.scheduled ∧
        ∃ rem, task.reminders.find? (fun r => decide (r.kind = kind)) = some rem ∧
          rem.sentAtIso = none ∧ rem.skippedReason = none ∧
          now - rem.atIso ≤ gracePeriodMs) ∧
    ((sendReminder data st true taskId kind now sendOk).1 = none →
      (sendReminder data st true taskId kind now sendOk).2.1 = data ∧
      (sendReminder data st true taskId kind now sendOk).2.2 = st) := by
  rw [sendReminder_eq_guard]
  cases hG : sendGuard data taskId kind now with
  | none =>
    constructor
    · simp only [Option.isSome_none, Bool.false_eq_true, false_iff]
      intro hcond
      obtain ⟨task, hT, hs, rem, hR, hsent, hskip, hgrace⟩ := hcond
      have := (sendGuard_some_iff data taskId kind now task rem).mpr
        ⟨hT, hs, hR, hsent, hskip, hgrace⟩
      rw [hG] at this
      exact Option.noConfusion this
    · intro _
      exact ⟨rfl, rfl⟩
  | some pair =>
    obtain ⟨task, rem⟩ := pair
    have hcond := (sendGuard_some_iff data taskId kind now task rem).mp hG
    constructor
    · simp only [Option.isSome_some, true_iff]
      exact ⟨task, hcond.1, hcond.2.1, rem, hcond.2.2.1, hcond.2.2.2.1,
        hcond.2.2.2.2.1, hcond.2.2.2.2.2⟩
    · intro hnone
      exact Option.noConfusion hnone

/-- Witness for C2: delivery attempted 4 minutes late proceeds; attempted
6 minutes late it is suppressed and leaves the store and registry
unchanged. -/
theorem sendReminder_guards_witness :
    (sendReminder
        ⟨1, "Europe/Paris",
          [⟨"w", 9, "msg", 1000000, 0, 0, TaskStatus.scheduled,
              [⟨ReminderKind.oneHourBefore, 1000000, none, none⟩]⟩]⟩
        ⟨[], [], 0⟩ true "w" ReminderKind.oneHourBefore 1240000 true).1.isSome = true ∧
    (sendReminder
        ⟨1, "Europe/Paris",
          [⟨"w", 9, "msg", 1000000, 0, 0, TaskStatus.scheduled,
              [⟨ReminderKind.oneHourBefore, 1000000, none, none⟩]⟩]⟩
        ⟨[], [], 0⟩ true "w" ReminderKind.oneHourBefore 1360000 true).1 = none ∧
    (sendReminder
        ⟨1, "Europe/Paris",
          [⟨"w", 9, "msg", 1000000, 0, 0, TaskStatus.scheduled,
              [⟨ReminderKind.oneHourBefore, 1000000, none, none⟩]⟩]⟩
        ⟨[], [], 0⟩ true "w" ReminderKind.oneHourBefore 1360000 true).2.1 =
      ⟨1, "Europe/Paris",
        [⟨"w", 9, "msg", 1000000, 0, 0, TaskStatus.scheduled,
            [⟨ReminderKind.oneHourBefore, 1000000, none, none⟩]⟩]⟩ ∧
    (sendReminder
        ⟨1, "Europe/Paris",
          [⟨"w", 9, "msg", 1000000, 0, 0, TaskStatus.scheduled,
              [⟨ReminderKind.oneHourBefore, 1000000, none, none⟩]⟩]⟩
        ⟨[], [], 0⟩ true "w" ReminderKind.oneHourBefore 1360000 true).2.2 =
      ⟨[], [], 0⟩ := by
  refine ⟨?_, by decide, ?_, ?_⟩
  · exact (sendReminder_guards
      ⟨1, "Europe/Paris",
        [⟨"w", 9, "msg", 1000000, 0, 0, TaskStatus.scheduled,
            [⟨ReminderKind.oneHourBefore, 1000000, none, none⟩]⟩]⟩
      ⟨[], [], 0⟩ "w" ReminderKind.oneHourBefore 1240000 true).1.mpr
      ⟨⟨"w", 9, "msg", 1000000, 0, 0, TaskStatus.scheduled,
          [⟨ReminderKind.oneHourBefore, 1000000, none, none⟩]⟩, by decide, rfl,
        ⟨ReminderKind.oneHourBefore, 1000000, none, none⟩, by decide, rfl, rfl,
        by decide⟩
  · exact ((sendReminder_guards
      ⟨1, "Europe/Paris",
        [⟨"w", 9, "msg", 1000000, 0, 0, TaskStatus.scheduled,
            [⟨ReminderKind.oneHourBefore, 1000000, none, none⟩]⟩]⟩
      ⟨[], [], 0⟩ "w" ReminderKind.oneHourBefore 1360000 true).2 (by decide)).1
  · exact ((sendReminder_guards
      ⟨1, "Europe/Paris",
        [⟨"w", 9, "msg", 1000000, 0, 0, TaskStatus.scheduled,
            [⟨ReminderKind.oneHourBefore, 1000000, none, none⟩]⟩]⟩
      ⟨[], [], 0⟩ "w" ReminderKind.oneHourBefore 1360000 true).2 (by decide)).2

theorem mapSet_filter_key (k : String) (v : TimerEntry) :
    ∀ l : List (String × TimerEntry), (l.map Prod.fst).Nodup →
      (mapSet l k v).filter (fun p => decide (p.1 = k)) = [(k, v)] := by
  intro l
  induction l with
  | nil => intro _; simp [mapSet]
  | cons p ps ih =>
    intro hnd
    rw [List.map_cons, List.nodup_cons] at hnd
    by_cases hp : p.1 = k
    · have hany : (p :: ps).any (fun q => decide (q.1 = k)) = true := by
        simp [List.any_cons, hp]
      unfold mapSet
      rw [if_pos hany, List.map_cons, if_pos hp]
      have hmap : ps.map (fun q => if q.1 = k then (k, v) else q) = ps := by
        have := List.map_congr_left (l := ps)
          (f := fun q : String × TimerEntry => if q.1 = k then (k, v) else q)
          (g := id) (fun q hq => by
            have hq' : q.1 ≠ k := by
              intro hk
              exact hnd.1 (hp ▸ hk ▸ List.mem_map_of_mem Prod.fst hq)
            simp [hq'])
        simpa using this
      rw [hmap]
      have hnone : ps.filter (fun q => decide (q.1 = k)) = [] := by
        rw [List.filter_eq_nil_iff]
        intro q hq
        simp only [decide_eq_true_eq]
        intro hk
        exact hnd.1 (hp ▸ hk ▸ List.mem_map_of_mem Prod.fst hq)
      simp [List.filter_cons, hnone]
    · by_cases hany : ps.any (fun q => decide (q.1 = k)) = true
      · have hany' : (p :: ps).any (fun q => decide (q.1 = k)) = true := by
          simp [List.any_cons, hany]
        have htail : ps.map (fun q => if q.1 = k then (k, v) else q) =
            mapSet ps k v := by
          unfold mapSet
          rw [if_pos hany]
        unfold mapSet
        rw [if_pos hany', List.map_cons, if_neg hp]
        rw [List.filter_cons_of_neg (by simp [hp]), htail]
        exact ih hnd.2
      · have hany' : (p :: ps).any (fun q => decide (q.1 = k)) = false := by
          simp [List.any_cons, hp, hany]
        unfold mapSet
        rw [if_neg (by simp [hany']), List.filter_append]
        have h1 : (p :: ps).filter (fun q => decide (q.1 = k)) = [] := by
          rw [List.filter_eq_nil_iff]
          intro q hq
          simp only [decide_eq_true_eq]
          rcases List.mem_cons.mp hq with h' | h'
          · rw [h']; exact hp
          · intro hk
            exact hany (List.any_eq_true.mpr ⟨q, h', by simp [hk]⟩)
        rw [h1]
        simp

/-- C9: `scheduleReminder` with `fireAt ≤ now` returns `false` and leaves
the timer state unchanged; with `fireAt > now` it returns `true`, the
registry afterwards holds exactly one entry for the `(taskId, kind)` key —
holding a live handle and the absolute fire instant — and any prior handle
for that key has been cleared (is no longer live). -/
theorem scheduleReminder_spec (st : SchedState) (task : Task)
    (kind : ReminderKind) (atIso now : Int)
    (hkeys : (st.registry.map Prod.fst).Nodup)
    (hlive : st.live.Nodup)
    (hh : ∀ p ∈ st.registry,
      p.2.handle.all (fun h => decide (h < st.nextHandle)) = true) :
    (atIso ≤ now → scheduleReminder st task kind atIso now = (false, st)) ∧
    (now < atIso →
      (scheduleReminder st task kind atIso now).1 = true ∧
      (scheduleReminder st task kind atIso now).2.registry.filter
          (fun p => decide (p.1 = getTimeoutKey task.id kind)) =
        [(getTimeoutKey task.id kind,
          { taskId := task.id, reminderKind := kind,
            handle := some st.nextHandle, fireAtMs := atIso })] ∧
      st.nextHandle ∈ (scheduleReminder st task kind atIso now).2.live ∧
      (∀ e : TimerEntry, mapGet st.registry (getTimeoutKey task.id kind) = some e →
        ∀ h0 : Nat, e.handle = some h0 →
          h0 ∉ (scheduleReminder st task kind atIso now).2.live)) := by
  constructor
  · intro hpast
    unfold scheduleReminder
    rw [if_pos (by omega)]
  · intro hfut
    have hng : ¬(atIso - now ≤ 0) := by omega
    have hfire : now + (atIso - now) = atIso := by omega
    cases hmg : mapGet st.registry (getTimeoutKey task.id kind) with
    | none =>
      unfold scheduleReminder
      rw [if_neg hng]
      dsimp only
      rw [hmg]
      dsimp only
      refine ⟨rfl, ?_, List.mem_cons_self _ _, ?_⟩
      · rw [hfire]
        exact mapSet_filter_key _ _ _ hkeys
      · intro e hmg' h0 _
        exact Option.noConfusion hmg'
    | some e =>
      obtain ⟨pr, hpr, hpre⟩ : ∃ pr, st.registry.find?
          (fun p => decide (p.1 = getTimeoutKey task.id kind)) = some pr ∧
            pr.2 = e := by
        unfold mapGet at hmg
        cases hf : st.registry.find?
            (fun p => decide (p.1 = getTimeoutKey task.id kind)) with
        | none => rw [hf] at hmg; exact Option.noConfusion hmg
        | some pr =>
          rw [hf] at hmg
          exact ⟨pr, rfl, Option.some_inj.mp hmg⟩
      cases he : e.handle with
      | none =>
        unfold scheduleReminder
        rw [if_neg hng]
        dsimp only
        rw [hmg]
        dsimp only
        rw [he]
        dsimp only
        refine ⟨rfl, ?_, List.mem_cons_self _ _, ?_⟩
        · rw [hfire]
          exact mapSet_filter_key _ _ _ hkeys
        · intro e' hmg' h0 he'
          cases Option.some_inj.mp hmg'
          rw [he] at he'
          exact Option.noConfusion he'
      | some h0 =>
        have hlt : h0 < st.nextHandle := by
          have := hh pr (List.mem_of_find?_eq_some hpr)
          rw [hpre, he] at this
          simpa using this
        unfold scheduleReminder
        rw [if_neg hng]
        dsimp only
        rw [hmg]
        dsimp only
        rw [he]
        dsimp only
        unfold clearTimeoutH
        dsimp only
        refine ⟨rfl, ?_, List.mem_cons_self _ _, ?_⟩
        · rw [hfire]
          exact mapSet_filter_key _ _ _ hkeys
        · intro e' hmg' h0' he'
          cases Option.some_inj.mp hmg'
          rw [he] at he'
          cases Option.some_inj.mp he'
          intro hmem
          rcases List.mem_cons.mp hmem with h' | h'
          · omega
          · exact absurd ((hlive.mem_erase_iff).mp h').1 (by simp)

/-- Witness for C9: a past fire instant registers nothing; a future one
replaces the prior entry for the key, arms handle 1 and clears handle 0. -/
theorem scheduleReminder_spec_witness :
    scheduleReminder
        ⟨[("w:atTime", ⟨"w", ReminderKind.atTime, some 0, 500⟩)], [0], 1⟩
        ⟨"w", 9, "m", 900, 0, 0, TaskStatus.scheduled, []⟩
        ReminderKind.atTime 90 100 =
      (false, ⟨[("w:atTime", ⟨"w", ReminderKind.atTime, some 0, 500⟩)], [0], 1⟩) ∧
    (scheduleReminder
        ⟨[("w:atTime", ⟨"w", ReminderKind.atTime, some 0, 500⟩)], [0], 1⟩
        ⟨"w", 9, "m", 900, 0, 0, TaskStatus.scheduled, []⟩
        ReminderKind.atTime 900 100).1 = true ∧
    (scheduleReminder
        ⟨[("w:atTime", ⟨"w", ReminderKind.atTime, some 0, 500⟩)], [0], 1⟩
        ⟨"w", 9, "m", 900, 0, 0, TaskStatus.scheduled, []⟩
        ReminderKind.atTime 900 100).2.registry.filter
        (fun p => decide (p.1 = getTimeoutKey "w" ReminderKind.atTime)) =
      [(getTimeoutKey "w" ReminderKind.atTime,
        ⟨"w", ReminderKind.atTime, some 1, 900⟩)] ∧
    (0 : Nat) ∉ (scheduleReminder
        ⟨[("w:atTime", ⟨"w", ReminderKind.atTime, some 0, 500⟩)], [0], 1⟩
        ⟨"w", 9, "m", 900, 0, 0, TaskStatus.scheduled, []⟩
        ReminderKind.atTime 900 100).2.live := by
  have h := scheduleReminder_spec
    ⟨[("w:atTime", ⟨"w", ReminderKind.atTime, some 0, 500⟩)], [0], 1⟩
    ⟨"w", 9, "m", 900, 0, 0, TaskStatus.scheduled, []⟩
    ReminderKind.atTime 900 100 (by decide) (by decide) (by decide)
  have h0 := scheduleReminder_spec
    ⟨[("w:atTime", ⟨"w", ReminderKind.atTime, some 0, 500⟩)], [0], 1⟩
    ⟨"w", 9, "m", 900, 0, 0, TaskStatus.scheduled, []⟩
    ReminderKind.atTime 90 100 (by decide) (by decide) (by decide)
  have hf := h.2 (by decide)
  exact ⟨h0.1 (by decide), hf.1, hf.2.1,
    hf.2.2.2 ⟨"w", ReminderKind.atTime, some 0, 500⟩ (by decide) 0 rfl⟩

/-- C10: whenever the `dayBefore2100` reminder of a task passes every
delivery guard (task present and scheduled, reminder unsent, unskipped,
within the 5-minute grace window), `sendReminder` calls the Notifier with
the empty string as the message text — the message `switch` only handles
`oneHourBefore` and `atTime` — while `computeReminders` always produces a
`dayBefore2100` reminder (which the scheduler arms like any other kind). -/
theorem dayBefore_sends_empty_message (data : TasksFile) (st : SchedState)
    (taskId : String) (now : Int) (sendOk : Bool) (task : Task) (rem : Reminder)
    (hT : getTask data taskId = some task)
    (hs : task.status = TaskStatus.scheduled)
    (hR : task.reminders.find?
      (fun r => decide (r.kind = ReminderKind.dayBefore2100)) = some rem)
    (hsent : rem.sentAtIso = none) (hskip : rem.skippedReason = none)
    (hgrace : now - rem.atIso ≤ gracePeriodMs) :
    (sendReminder data st true taskId ReminderKind.dayBefore2100 now sendOk).1 =
      some (task.chatId, "") ∧
    ∀ due : Int, ∃ r ∈ computeReminders due, r.kind = ReminderKind.dayBefore2100 := by
  constructor
  · have hG : sendGuard data taskId ReminderKind.dayBefore2100 now = some (task, rem) :=
      (sendGuard_some_iff data taskId ReminderKind.dayBefore2100 now task rem).mpr
        ⟨hT, hs, hR, hsent, hskip, hgrace⟩
    rw [sendReminder_eq_guard, hG]
    cases sendOk <;> rfl
  · intro due
    unfold computeReminders
    exact ⟨_, List.mem_cons_self _ _, rfl⟩

/-- Witness for C10 at a concrete store. -/
theorem dayBefore_sends_empty_message_witness :
    (sendReminder
        ⟨1, "Europe/Paris",
          [⟨"d", 9, "msg", 2000, 0, 0, TaskStatus.scheduled,
              [⟨ReminderKind.dayBefore2100, 1000, none, none⟩]⟩]⟩
        ⟨[], [], 0⟩ true "d" ReminderKind.dayBefore2100 1100 true).1 =
      some (9, "") ∧
    ∃ r ∈ computeReminders 1710100800000, r.kind = ReminderKind.dayBefore2100 := by
  have h := dayBefore_sends_empty_message
    ⟨1, "Europe/Paris",
      [⟨"d", 9, "msg", 2000, 0, 0, TaskStatus.scheduled,
          [⟨ReminderKind.dayBefore2100, 1000, none, none⟩]⟩]⟩
    ⟨[], [], 0⟩ "d" 1100 true
    ⟨"d", 9, "msg", 2000, 0, 0, TaskStatus.scheduled,
      [⟨ReminderKind.dayBefore2100, 1000, none, none⟩]⟩
    ⟨ReminderKind.dayBefore2100, 1000, none, none⟩
    (by decide) rfl (by decide) rfl rfl (by decide)
  exact ⟨h.1, h.2 1710100800000⟩

/-! ## Europe/Paris calendar lemmas -/

theorem parisOffset_cases (t : Int) :
    parisOffset t = cetOffset ∨ parisOffset t = cestOffset := by
  unfold parisOffset
  split
  · exact Or.inr rfl
  · exact Or.inl rfl

theorem jan1Day_succ_bounds (y : Int) :
    jan1Day y + 365 ≤ jan1Day (y + 1) ∧ jan1Day (y + 1) ≤ jan1Day y + 366 := by
  unfold jan1Day
  omega

theorem jan1Day_mono {y y' : Int} (h : y ≤ y') : jan1Day y ≤ jan1Day y' := by
  unfold jan1Day
  omega

theorem jan1Day_bound_low (y d : Int) (h1 : 146097 * (y - 1970) ≤ 400 * d) :
    jan1Day (y - 1) ≤ d := by
  unfold jan1Day
  omega

theorem jan1Day_bound_high (y d : Int) (h2 : 400 * d < 146097 * (y - 1969)) :
    d < jan1Day (y + 2) := by
  unfold jan1Day
  omega

theorem yearOfDay_bracket (d : Int) :
    jan1Day (yearOfDay d) ≤ d ∧ d < jan1Day (yearOfDay d + 1) := by
  have hdiv1 : 146097 * ((1970 + 400 * d / 146097) - 1970) ≤ 400 * d := by omega
  have hdiv2 : 400 * d < 146097 * ((1970 + 400 * d / 146097) - 1969) := by omega
  have hlow := jan1Day_bound_low (1970 + 400 * d / 146097) d hdiv1
  have hhigh := jan1Day_bound_high (1970 + 400 * d / 146097) d hdiv2
  unfold yearOfDay
  dsimp only
  split
  case isTrue h =>
    refine ⟨hlow, ?_⟩
    have he : (1970 + 400 * d / 146097 - 1 + 1) = (1970 + 400 * d / 146097) := by
      ring
    rw [he]
    exact h
  case isFalse h =>
    split
    case isTrue h2 => exact ⟨not_lt.mp h, h2⟩
    case isFalse h2 =>
      refine ⟨not_lt.mp h2, ?_⟩
      have he : (1970 + 400 * d / 146097 + 1 + 1) = (1970 + 400 * d / 146097 + 2) := by
        ring
      rw [he]
      exact hhigh

theorem yearOfDay_mono {d d' : Int} (h : d ≤ d') : yearOfDay d ≤ yearOfDay d' := by
  by_contra hc
  push_neg at hc
  have h1 := yearOfDay_bracket d
  have h2 := yearOfDay_bracket d'
  have h3 : yearOfDay d' + 1 ≤ yearOfDay d := by omega
  have h4 := jan1Day_mono h3
  omega

theorem marchSunday_bounds (y : Int) :
    jan1Day y + 83 ≤ lastSundayOnOrBefore (mar31Day y) ∧
    lastSundayOnOrBefore (mar31Day y) ≤ jan1Day y + 90 := by
  unfold lastSundayOnOrBefore mar31Day
  split <;> omega

theorem octSunday_bounds (y : Int) :
    jan1Day y + 297 ≤ lastSundayOnOrBefore (oct31Day y) ∧
    lastSundayOnOrBefore (oct31Day y) ≤ jan1Day y + 304 := by
  unfold lastSundayOnOrBefore oct31Day
  split <;> omega

theorem parisOffset_cest (t : Int) (h : parisOffset t = cestOffset) :
    marchTransMs (yearOfDay (t / msPerDay)) ≤ t ∧
    t < octTransMs (yearOfDay (t / msPerDay)) := by
  unfold parisOffset at h
  by_cases hd : isDST t = true
  · unfold isDST at hd
    simp only [Bool.and_eq_true, decide_eq_true_eq] at hd
    exact hd
  · rw [if_neg hd] at h
    exact absurd h (by unfold cetOffset cestOffset; decide)

theorem parisOffset_cet (t : Int) (h : parisOffset t = cetOffset) :
    ¬(marchTransMs (yearOfDay (t / msPerDay)) ≤ t ∧
      t < octTransMs (yearOfDay (t / msPerDay))) := by
  unfold parisOffset at h
  by_cases hd : isDST t = true
  · rw [if_pos hd] at h
    exact absurd h (by unfold cetOffset cestOffset; decide)
  · intro hc
    apply hd
    unfold isDST
    simp only [Bool.and_eq_true, decide_eq_true_eq]
    exact hc

/-- In a spring-forward gap — a local timestamp `l` that resolves under
neither offset — the local time of day lies in `[02:00, 03:00)`: the
transition happens at 01:00 UTC, i.e. 02:00 local CET. -/
theorem gap_tod (l : Int)
    (hb : parisOffset (l - cetOffset) = cestOffset)
    (ha : parisOffset (l - cestOffset) = cetOffset) :
    7200000 ≤ l % msPerDay ∧ l % msPerDay < 10800000 := by
  have hdstb := parisOffset_cest (l - cetOffset) hb
  have hdsta := parisOffset_cet (l - cestOffset) ha
  simp only [cetOffset, cestOffset, msPerDay, marchTransMs, octTransMs]
    at hdstb hdsta
  unfold msPerDay
  set da := (l - 7200000) / 86400000 with hda
  set db := (l - 3600000) / 86400000 with hdb
  set ya := yearOfDay da with hyadef
  set yb := yearOfDay db with hybdef
  have hmono : ya ≤ yb := yearOfDay_mono (by omega)
  have hbrka := yearOfDay_bracket da
  have hbrkb := yearOfDay_bracket db
  rw [← hyadef] at hbrka
  rw [← hybdef] at hbrkb
  have hmb := marchSunday_bounds yb
  have hob := octSunday_bounds yb
  have hma := marchSunday_bounds ya
  have hoa := octSunday_bounds ya
  by_cases hyy : ya = yb
  · rw [hyy] at hdsta
    rcases not_and_or.mp hdsta with hna | hnb
    · push_neg at hna
      omega
    · push_neg at hnb
      omega
  · have hyy' : ya < yb := lt_of_le_of_ne hmono hyy
    exfalso
    have hdab : db = da ∨ db = da + 1 := by omega
    rcases hdab with h' | h'
    · exact hyy (by rw [hyadef, hybdef, h'])
    · have h2 : da < jan1Day yb := by
        by_contra hc
        push_neg at hc
        have hj := jan1Day_mono (show ya + 1 ≤ yb by omega)
        omega
      omega

/-- Resolution of a Paris local timestamp by luxon's `fixOffset`, starting
from either plausible offset: normally the civil timestamp is preserved
and the stored offset is consistent; in a spring-forward gap the civil
timestamp shifts forward one hour (and the local time of day was in
`[02:00, 03:00)`). -/
theorem fixOffset_civil (l o0 : Int) (ho : o0 = cetOffset ∨ o0 = cestOffset) :
    ((fixOffset l o0).1 + (fixOffset l o0).2 = l ∧
      parisOffset (fixOffset l o0).1 = (fixOffset l o0).2) ∨
    ((fixOffset l o0).1 + (fixOffset l o0).2 = l + 3600000 ∧
      parisOffset (fixOffset l o0).1 = (fixOffset l o0).2 ∧
      7200000 ≤ l % msPerDay ∧ l % msPerDay < 10800000) := by
  unfold fixOffset
  dsimp only
  by_cases h1 : parisOffset (l - o0) = o0
  · rw [if_pos h1]
    left
    exact ⟨by rw [h1]; ring, rfl⟩
  · rw [if_neg h1]
    by_cases h2 : parisOffset (l - parisOffset (l - o0)) = parisOffset (l - o0)
    · rw [if_pos h2]
      left
      exact ⟨by rw [h2]; ring, rfl⟩
    · rw [if_neg h2]
      right
      rcases ho with rfl | rfl
      · have ho1val : parisOffset (l - cetOffset) = cestOffset := by
          rcases parisOffset_cases (l - cetOffset) with h | h
          · exact absurd h h1
          · exact h
        rw [ho1val] at h2 ⊢
        have ho2val : parisOffset (l - cestOffset) = cetOffset := by
          rcases parisOffset_cases (l - cestOffset) with h | h
          · exact h
          · exact absurd h h2
        rw [ho2val]
        have hmin : min cestOffset cetOffset = cetOffset := by
          unfold cetOffset cestOffset
          decide
        have hmax : max cestOffset cetOffset = cestOffset := by
          unfold cetOffset cestOffset
          decide
        rw [hmin, hmax]
        refine ⟨by unfold cetOffset cestOffset; ring, ?_, gap_tod l ho1val ho2val⟩
        exact ho1val
      · have ho1val : parisOffset (l - cestOffset) = cetOffset := by
          rcases parisOffset_cases (l - cestOffset) with h | h
          · exact h
          · exact absurd h h1
        rw [ho1val] at h2 ⊢
        have ho2val : parisOffset (l - cetOffset) = cestOffset := by
          rcases parisOffset_cases (l - cetOffset) with h | h
          · exact absurd h h2
          · exact h
        rw [ho2val]
        have hmin : min cetOffset cestOffset = cetOffset := by
          unfold cetOffset cestOffset
          decide
        have hmax : max cetOffset cestOffset = cestOffset := by
          unfold cetOffset cestOffset
          decide
        rw [hmin, hmax]
        refine ⟨by unfold cetOffset cestOffset; ring, ?_, gap_tod l ho2val ho1val⟩
        exact ho2val

/-- The `minus \x7bdays: 1\x7d` resolution step: the resolved civil datetime is
on the preceding civil date (even across a spring-forward gap, whose one
hour shift stays inside the same date), and the stored offset is a Paris
offset. -/
theorem fixOffset_minus_day (lday ltime o0 : Int) (hlt1 : 0 ≤ ltime)
    (hlt2 : ltime < msPerDay) (ho : o0 = cetOffset ∨ o0 = cestOffset) :
    ((fixOffset ((lday - 1) * msPerDay + ltime) o0).1 +
      (fixOffset ((lday - 1) * msPerDay + ltime) o0).2) / msPerDay = lday - 1 ∧
    ((fixOffset ((lday - 1) * msPerDay + ltime) o0).2 = cetOffset ∨
     (fixOffset ((lday - 1) * msPerDay + ltime) o0).2 = cestOffset) := by
  have hcases := fixOffset_civil ((lday - 1) * msPerDay + ltime) o0 ho
  constructor
  · rcases hcases with ⟨h1, _⟩ | ⟨h1, _, h3, h4⟩
    · rw [h1]
      unfold msPerDay at *
      omega
    · rw [h1]
      unfold msPerDay at *
      omega
  · rcases hcases with ⟨_, h2⟩ | ⟨_, h2, _⟩ <;>
      exact h2 ▸ parisOffset_cases (fixOffset ((lday - 1) * msPerDay + ltime) o0).1

/-- The `set \x7bhour: 21, ...\x7d` resolution step: 21:00 local is never in a
gap (transitions happen at 02:00/03:00 local), so the civil timestamp is
preserved exactly. -/
theorem fixOffset_2100 (d o0 : Int) (ho : o0 = cetOffset ∨ o0 = cestOffset) :
    (fixOffset (d * msPerDay + 75600000) o0).1 +
      (fixOffset (d * msPerDay + 75600000) o0).2 = d * msPerDay + 75600000 ∧
    parisOffset (fixOffset (d * msPerDay + 75600000) o0).1 =
      (fixOffset (d * msPerDay + 75600000) o0).2 := by
  rcases fixOffset_civil (d * msPerDay + 75600000) o0 ho with h | ⟨_, _, h3, h4⟩
  · exact h
  · exfalso
    unfold msPerDay at h3 h4
    omega

/-- C7: `computeReminders` returns exactly three reminders — `atTime` at
the due instant, `oneHourBefore` at the due instant minus one hour, and
`dayBefore2100` at an instant whose Europe/Paris civil datetime is 21:00
on the civil date immediately preceding the due instant's Paris civil
date.  The last equality holds for every instant, so a daylight-saving
transition between the two days does not shift the 21:00 anchor (the
computation is civil-calendar arithmetic, not instant subtraction).  The
second conjunct checks the spec's concrete example
`2024-03-10T20:00:00Z` (`oneHourBefore = 2024-03-10T19:00:00Z`,
`atTime = 2024-03-10T20:00:00Z`). -/
theorem computeReminders_spec :
    (∀ t : Int,
      ∃ db : Int,
        computeReminders t =
          [{ kind := .dayBefore2100, atIso := db },
           { kind := .oneHourBefore, atIso := t - 3600000 },
           { kind := .atTime, atIso := t }] ∧
        parisCivilMs db =
          (parisCivilMs t / msPerDay - 1) * msPerDay + 75600000) ∧
    computeReminders 1710100800000 =
      [{ kind := .dayBefore2100, atIso := 1710014400000 },
       { kind := .oneHourBefore, atIso := 1710097200000 },
       { kind := .atTime, atIso := 1710100800000 }] := by
  constructor
  · intro t
    have ho := parisOffset_cases t
    have hlt1 : 0 ≤ (t + parisOffset t) % msPerDay := by
      unfold msPerDay
      omega
    have hlt2 : (t + parisOffset t) % msPerDay < msPerDay := by
      unfold msPerDay
      omega
    have hstep1 := fixOffset_minus_day ((t + parisOffset t) / msPerDay)
      ((t + parisOffset t) % msPerDay) (parisOffset t) hlt1 hlt2 ho
    have hstep2 := fixOffset_2100 ((t + parisOffset t) / msPerDay - 1)
      (fixOffset (((t + parisOffset t) / msPerDay - 1) * msPerDay +
        (t + parisOffset t) % msPerDay) (parisOffset t)).2 hstep1.2
    refine ⟨_, rfl, ?_⟩
    unfold parisCivilMs
    rw [hstep1.1, hstep2.2, hstep2.1]
  · decide

end TRB
